import Mathlib

/-!
Verification of the docx-to-html converter (`convert_docx_to_html.py`,
`util.py`, `docx_to_html.py`) against its natural-language specification.

The Python sources are shallowly embedded: strings are modelled as `List Char`
(so that every operation is structurally recursive and kernel-reducible),
Python dictionaries as insertion-ordered association lists with
update-in-place semantics, floats appearing in unit conversions as exact
rationals, and Python exceptions as `Except` values.  Each section names the
source function it embeds.
-/

namespace DocxToHtml

/-- Strings are modelled as lists of characters. -/
abbrev Str := List Char

/-- Python `str.isspace` characters relevant here (ASCII whitespace, as used
by `str.strip`, `\s` in the regexes, and `str.split()`). -/
def pyIsSpace (c : Char) : Bool :=
  c = ' ' || c = '\t' || c = '\n' || c = '\r' || c = '\x0b' || c = '\x0c'

/-- Python `str.strip()` with no arguments: remove whitespace on both ends. -/
def pyStrip (s : Str) : Str :=
  ((s.dropWhile pyIsSpace).reverse.dropWhile pyIsSpace).reverse

/-- Python `str.lstrip` of whitespace, as performed by `re.sub(r'^\s+', '', s)`. -/
def pyLstrip (s : Str) : Str :=
  s.dropWhile pyIsSpace

/-- Python single-character `str.split(sep)`: `"a;;b".split(';') = ["a","","b"]`
and `"".split(';') = [""]`. -/
def pySplitChar (sep : Char) : Str → List Str
  | [] => [[]]
  | c :: cs =>
    let r := pySplitChar sep cs
    if c = sep then
      [] :: r
    else
      match r with
      | h :: t => (c :: h) :: t
      | [] => [[c]]

/-- Python `sep in s` for a single character. -/
def pyContainsChar (s : Str) (c : Char) : Bool :=
  s.contains c

/-- Python `sub in s` for substrings. -/
def pyContainsSub (s sub : Str) : Bool :=
  s.tails.any (fun t => sub.isPrefixOf t)

/-- Python `s.startswith(prefix)`. -/
def pyStartsWith (s pre : Str) : Bool :=
  pre.isPrefixOf s

/-- ASCII lower-casing of one character, modelling `str.lower` on the ASCII
style identifiers that occur in the claims. -/
def pyLowerChar (c : Char) : Char :=
  if 'A' ≤ c ∧ c ≤ 'Z' then Char.ofNat (c.toNat + 32) else c

/-- Python `str.lower()`. -/
def pyLower (s : Str) : Str :=
  s.map pyLowerChar

/-- Python `str.replace(old, new)` with `new = ""` for a literal `old`:
removes every occurrence, scanning left to right. -/
def pyRemoveSubFuel (pat : Str) : Nat → Str → Str
  | 0, s => s
  | _, [] => []
  | fuel + 1, c :: cs =>
    if pat ≠ [] ∧ pat.isPrefixOf (c :: cs) then
      pyRemoveSubFuel pat fuel ((c :: cs).drop pat.length)
    else
      c :: pyRemoveSubFuel pat fuel cs

/-- Python `str.replace(old, new)` with `new = ""` for a literal `old`:
removes every occurrence, scanning left to right.  The fuel (the length of
the string, each step consuming at least one character) keeps the recursion
structural. -/
def pyRemoveSub (pat : Str) (s : Str) : Str :=
  pyRemoveSubFuel pat s.length s

/-- Python `str.join` on a separator, i.e. `sep.join(parts)`. -/
def pyJoin (sep : Str) (parts : List Str) : Str :=
  List.intercalate sep parts

/-- Python `int(s)` on a decimal string: optional surrounding whitespace,
optional sign, at least one digit and nothing else; otherwise a `ValueError`
is raised (modelled as `none`).  This is what `_get_list_number` applies to a
dot-joined multi-level number before the alphabetic and roman formatters. -/
def pyInt (s : Str) : Option Int :=
  let t := pyStrip s
  let core := match t with
    | '+' :: rest => some (1, rest)
    | '-' :: rest => some (-1, rest)
    | rest => some (1, rest)
  match core with
  | some (sign, digits) =>
    if digits ≠ [] ∧ digits.all Char.isDigit then
      some (sign * Int.ofNat (digits.foldl (fun n c => n * 10 + (c.toNat - '0'.toNat)) 0))
    else
      none
  | none => none

/-- Decimal rendering of a natural number, used for `str(counter)` and for the
numeric suffixes of heading anchors. -/
def natToStr (n : Nat) : Str :=
  Nat.toDigits 10 n

/-- Python `str(i)` for an integer. -/
def intToStr (i : Int) : Str :=
  if i < 0 then '-' :: natToStr (-i).toNat else natToStr i.toNat

/-- Python `html.escape(text)` (quote=True): escapes `&`, `<`, `>`, double
quote and the single quote. -/
def pyEscapeChar (c : Char) : Str :=
  if c = '&' then ('&' :: ('a' :: ('m' :: ('p' :: (';' :: [])))))
  else if c = '<' then ('&' :: ('l' :: ('t' :: (';' :: []))))
  else if c = '>' then ('&' :: ('g' :: ('t' :: (';' :: []))))
  else if c = '"' then ('&' :: ('q' :: ('u' :: ('o' :: ('t' :: (';' :: []))))))
  else if c = '\x27' then ('&' :: ('#' :: ('x' :: ('2' :: ('7' :: (';' :: []))))))
  else [c]

/-- Python `html.escape` over a whole string. -/
def pyEscape (s : Str) : Str :=
  s.flatMap pyEscapeChar

/-! CSS dictionaries.  `merge_css_with_priority` in `util.py` accumulates the
declarations of the given css strings into a Python dict (insertion ordered,
update in place) and re-renders it.  The dict is modelled as an association
list with the same semantics. -/

/-- Lookup in an association list (Python `dict.get`). -/
def alookupD : List (Str × Str) → Str → Option Str
  | [], _ => none
  | (k, v) :: rest, key => if k = key then some v else alookupD rest key

/-- Python `css_dict[prop] = value`: update in place when the key is present
(keeping its insertion position), otherwise append. -/
def cssUpdate (d : List (Str × Str)) (k v : Str) : List (Str × Str) :=
  if d.any (fun kv => kv.1 = k) then
    d.map (fun kv => if kv.1 = k then (k, v) else kv)
  else
    d ++ [(k, v)]

/-- One item of `css_str.split(';')` parsed the way `merge_css_with_priority`
does: it must contain a colon, and the stripped property and value must both
be non-empty. -/
def cssDecl (pv : Str) : Option (Str × Str) :=
  if pyContainsChar pv ':' then
    let prop := pyStrip (pv.takeWhile (fun c => c ≠ ':'))
    let value := pyStrip ((pv.dropWhile (fun c => c ≠ ':')).drop 1)
    if prop ≠ [] ∧ value ≠ [] then some (prop, value) else none
  else
    none

/-- The ordered list of (property, value) declarations that
`merge_css_with_priority` extracts from one css string. -/
def declsOf (css : Str) : List (Str × Str) :=
  (pySplitChar ';' css).filterMap cssDecl

/-- Folding the declarations of one css string into the dict. -/
def parseDecls (d : List (Str × Str)) (css : Str) : List (Str × Str) :=
  (declsOf css).foldl (fun d kv => cssUpdate d kv.1 kv.2) d

/-- The css dict built by `merge_css_with_priority` from a list of css
strings (empty strings are skipped by the `if not css_str: continue`). -/
def mergedCssDict (parts : List Str) : List (Str × Str) :=
  parts.foldl (fun d css => if css = [] then d else parseDecls d css) []

/-- Rendering of one dict entry as `f"{k}: {v}"`. -/
def renderDecl (kv : Str × Str) : Str :=
  kv.1 ++ (':' :: (' ' :: kv.2))

/-- Embedding of `DocxUtils.merge_css_with_priority` (util.py lines 128-151):
later declarations override earlier ones per property key. -/
def merge_css_with_priority (parts : List Str) : Str :=
  pyJoin (("; ").data) ((mergedCssDict parts).map renderDecl)

/-- Python `value.split()` (whitespace split, empty pieces dropped), via an
accumulator so that the recursion is structural. -/
def pySplitWsAux : Str → Str → List Str
  | [], acc => if acc = [] then [] else [acc.reverse]
  | c :: cs, acc =>
    if pyIsSpace c then
      if acc = [] then pySplitWsAux cs [] else acc.reverse :: pySplitWsAux cs []
    else
      pySplitWsAux cs (c :: acc)

/-- Python `s.split()` with no argument. -/
def pySplitWs (s : Str) : List Str :=
  pySplitWsAux s []

/-- Embedding of `DocxUtils.normalize_css` (util.py lines 102-126). -/
def normalize_css (css : Str) : Str :=
  if css = [] then []
  else
    let parts := ((pySplitChar ';' css).map pyStrip).filter (fun p => p ≠ [])
    let normalized := parts.filterMap (fun part =>
      if pyContainsChar part ':' then
        let prop := pyStrip (part.takeWhile (fun c => c ≠ ':'))
        let value := pyStrip ((part.dropWhile (fun c => c ≠ ':')).drop 1)
        let value := pyJoin ([' ']) (pySplitWs value)
        if prop ≠ [] ∧ value ≠ [] then some (prop ++ (':' :: (' ' :: value))) else none
      else none)
    pyJoin (("; ").data) normalized

/-- The value the last declaration of property `k` in css string `css`
assigns, if any (the "most specific declaration" of `k` inside one css
string). -/
def lastDecl (k : Str) (css : Str) : Option Str :=
  (declsOf css).foldl (fun acc kv => if kv.1 = k then some kv.2 else acc) none

/-! Unit conversions from `util.py`.  The Python code computes with floats;
they are modelled as exact rationals (the float literal `1.33` as `133/100`),
and Python `int()` truncation toward zero as `pyTrunc`.  No claim depends on
a value where the float rounding of these conversions and the exact rational
differ. -/

/-- Truncation toward zero, Python `int()` applied to a float. -/
def pyTrunc (q : ℚ) : Int :=
  Int.tdiv q.num (q.den : Int)

/-- Embedding of `DocxUtils.twip_to_pixels` with `apply_scale=False`
(util.py lines 54-68): `twip / 20 * 1.33` for truthy input, else `0`. -/
def twip_to_pixels (twip : Int) : ℚ :=
  if twip ≠ 0 then (twip : ℚ) / 20 * (133 / 100) else 0

/-- Embedding of the unscaled branch of `DocxUtils.emu_to_pixels`
(util.py lines 30-44): `int(emu * 96 / 914400)` for truthy input, else `0`. -/
def emuToPixelsBase (emu : Int) : Int :=
  if emu ≠ 0 then pyTrunc ((emu : ℚ) * 96 / 914400) else 0

/-- Embedding of `DocxUtils.emu_to_pixels` with `apply_scale=True`: the base
value is multiplied by the global `DocxUtils.SCALE` and truncated again. -/
def emu_to_pixels_scaled (scale : ℚ) (emu : Int) : Int :=
  pyTrunc ((emuToPixelsBase emu : ℚ) * scale)

/-! XML property models.  A `w:rPr` / `w:pPr` subtree is modelled by the
child elements and attributes that the converter actually reads: an outer
`Option` records whether the child element is present, an inner `Option`
whether the attribute is present (`elem.get` returning `None` otherwise). -/

/-- The parts of a `w:rPr` run-properties subtree read by
`DocxUtils.get_run_style_css` and `is_heading_from_xml`. -/
structure RPr where
  color : Option (Option Str) := none
  highlight : Option (Option Str) := none
  b : Option (Option Str) := none
  i : Option (Option Str) := none
  u : Option (Option Str) := none
  strike : Option (Option Str) := none
  vertAlign : Option (Option Str) := none
  spacing : Option (Option Str) := none
  w : Option (Option Str) := none
  shd : Option (Option Str) := none
  sz : Option (Option Str) := none
deriving DecidableEq, Repr

/-- Truthiness of an optional string, Python `if val:`. -/
def optTruthy : Option Str → Bool
  | none => false
  | some s => s ≠ []

/-- The highlight `color_map` of `get_run_style_css`. -/
def highlightColor (v : Str) : Option Str :=
  if v = ("yellow").data then some (("#FFFF00").data)
  else if v = ("cyan").data then some (("#00FFFF").data)
  else if v = ("magenta").data then some (("#FF00FF").data)
  else if v = ("blue").data then some (("#0000FF").data)
  else if v = ("red").data then some (("#FF0000").data)
  else if v = ("green").data then some (("#00FF00").data)
  else if v = ("darkBlue").data then some (("#00008B").data)
  else if v = ("darkRed").data then some (("#8B0000").data)
  else if v = ("darkCyan").data then some (("#008B8B").data)
  else none

/-- The `underline_map` of `get_run_style_css`, with default `underline`. -/
def underlineMap (v : Str) : Str :=
  if v = ("single").data then ("underline").data
  else if v = ("double").data then ("underline double").data
  else if v = ("dotted").data then ("underline dotted").data
  else if v = ("dashed").data then ("underline dashed").data
  else ("underline").data

/-- Python `int(attr)` where `attr` came from `elem.get`: a missing attribute
raises `TypeError`, a malformed one `ValueError`. -/
def pyIntAttr (a : Option Str) : Except Str Int :=
  match a with
  | none => .error (("TypeError").data)
  | some s =>
    match pyInt s with
    | some n => .ok n
    | none => .error (("ValueError").data)

/-- Rendering of `f"{scaling}"` for `scaling = int(w_val) / 100`, a float
with at most two decimal places. -/
def formatScaling (n : Int) : Str :=
  let sign : Str := if n < 0 then ['-'] else []
  let m := n.natAbs
  let ip := natToStr (m / 100)
  let fr := m % 100
  let frs : Str :=
    if fr = 0 then ('0' :: [])
    else if fr % 10 = 0 then natToStr (fr / 10)
    else if fr < 10 then '0' :: natToStr fr
    else natToStr fr
  sign ++ ip ++ ('.' :: frs)

/-- Embedding of `DocxUtils.get_run_style_css` with `apply_scale=False`
(util.py lines 243-336).  The `int()` conversions in the letter-spacing and
character-scaling branches can raise, hence the `Except` result. -/
def get_run_style_css (rPr : Option RPr) : Except Str Str := do
  match rPr with
  | none => return []
  | some r =>
    let styles : List Str := []
    let styles := match r.color with
      | some (some cv) =>
        if cv = [] then styles
        else if cv = ("auto").data then styles ++ [("color: currentColor").data]
        else if cv.length = 6 then styles ++ [(("color: #").data) ++ cv]
        else if pyStartsWith cv (("themeColor").data) then
          styles ++ [(("color: var(--").data) ++ pyRemoveSub (("themeColor:").data) cv ++ ((")").data)]
        else styles
      | _ => styles
    let styles := match r.highlight with
      | some (some hv) =>
        if hv ≠ [] ∧ hv ≠ ("none").data then
          match highlightColor hv with
          | some col => styles ++ [(("background-color: ").data) ++ col]
          | none => styles
        else styles
      | _ => styles
    let styles := match r.b with
      | some bAttr => if bAttr ≠ some (("0").data) then styles ++ [("font-weight: bold").data] else styles
      | none => styles
    let styles := match r.i with
      | some iAttr => if iAttr ≠ some (("0").data) then styles ++ [("font-style: italic").data] else styles
      | none => styles
    let styles := match r.u with
      | some uAttr =>
        if uAttr ≠ some (("0").data) then
          styles ++ [(("text-decoration: ").data) ++ underlineMap (uAttr.getD (("single").data))]
        else styles
      | none => styles
    let styles := match r.strike with
      | some sAttr => if sAttr ≠ some (("0").data) then styles ++ [("text-decoration: line-through").data] else styles
      | none => styles
    let styles := match r.vertAlign with
      | some va =>
        if va = some (("superscript").data) then styles ++ [("vertical-align: super; font-size: 0.8em").data]
        else if va = some (("subscript").data) then styles ++ [("vertical-align: sub; font-size: 0.8em").data]
        else styles
      | none => styles
    let styles ← match r.spacing with
      | some (some sv) =>
        if sv ≠ [] then do
          let tw ← pyIntAttr (some sv)
          pure (styles ++ [(("letter-spacing: ").data) ++ intToStr (pyTrunc (twip_to_pixels tw)) ++ (("px").data)])
        else pure styles
      | _ => pure styles
    let styles ← match r.w with
      | some (some wv) =>
        if wv ≠ [] then do
          let n ← pyIntAttr (some wv)
          pure (styles ++ [(("transform: scaleX(").data) ++ formatScaling n ++ ((")").data)])
        else pure styles
      | _ => pure styles
    let styles := match r.shd with
      | some (some fill) =>
        if fill ≠ [] ∧ fill ≠ ("auto").data then
          styles ++ [(("text-shadow: 1px 1px 2px #").data) ++ fill]
        else styles
      | _ => styles
    return normalize_css (pyJoin (("; ").data) styles)

/-- Rounding half-to-even, the behaviour of `f"{x:.2f}"` on exactly
representable values (scaled by 100 first). -/
def roundHalfEven (q : ℚ) : Int :=
  let f := ⌊q⌋
  let frac := q - (f : ℚ)
  if frac < 1 / 2 then f
  else if frac > 1 / 2 then f + 1
  else if f % 2 = 0 then f else f + 1

/-- Rendering of `f"{line_height:.2f}"`. -/
def format2f (q : ℚ) : Str :=
  let r := roundHalfEven (q * 100)
  let sign : Str := if r < 0 then ['-'] else []
  let m := r.natAbs
  let ip := natToStr (m / 100)
  let fr := m % 100
  let frs : Str := if fr < 10 then '0' :: natToStr fr else natToStr fr
  sign ++ ip ++ ('.' :: frs)

/-- The `align_map` of `get_paragraph_style_css`. -/
def alignMap (v : Str) : Option Str :=
  if v = ("center").data then some (("center").data)
  else if v = ("right").data then some (("right").data)
  else if v = ("both").data then some (("justify").data)
  else if v = ("left").data then some (("left").data)
  else none

/-- Attributes of a `w:spacing` child of `w:pPr`. -/
structure SpacingAttrs where
  before : Option Str := none
  after : Option Str := none
  lineRule : Option Str := none
  line : Option Str := none
deriving DecidableEq, Repr

/-- Attributes of a `w:ind` child of `w:pPr`. -/
structure IndAttrs where
  left : Option Str := none
  right : Option Str := none
  firstLine : Option Str := none
  hanging : Option Str := none
deriving DecidableEq, Repr

/-- The `w:ilvl` and `w:numId` children of a `w:numPr` element (each an
optional element whose `w:val` attribute is itself optional). -/
structure NumPrAttrs where
  ilvl : Option (Option Str) := none
  numId : Option (Option Str) := none
deriving DecidableEq, Repr

/-- The parts of a `w:pPr` paragraph-properties subtree read by the
converter.  The `w:pBdr` border subtree (read only to decorate the border
style of table-of-contents entries) is not modelled; the embedded paragraphs
carry no borders, which no claim depends on. -/
structure PPr where
  jc : Option (Option Str) := none
  spacing : Option SpacingAttrs := none
  ind : Option IndAttrs := none
  indFirstLineChars : Option (Option Str) := none
  textDirection : Option (Option Str) := none
  numPr : Option NumPrAttrs := none
  pStyle : Option (Option Str) := none
  outlineLvl : Option (Option Str) := none
  buChar : Option (Option Str) := none
  ilvl : Option (Option Str) := none
deriving DecidableEq, Repr

/-- Embedding of `DocxUtils.get_paragraph_style_css` with `apply_scale=False`
(util.py lines 153-241).  The `int()` conversions can raise, and a
`w:lineRule` value outside the handled cases leaves `line_height` unbound
(an `UnboundLocalError` at the format string), hence the `Except` result. -/
def get_paragraph_style_css (pPr : Option PPr) : Except Str Str := do
  match pPr with
  | none => return []
  | some pr =>
    let styles : List Str := []
    let styles := match pr.jc with
      | some jcAttr =>
        match alignMap (jcAttr.getD (("left").data)) with
        | some m => styles ++ [(("text-align: ").data) ++ m]
        | none => styles
      | none => styles
    let styles ← match pr.spacing with
      | some sp => do
        let styles ←
          if optTruthy sp.before then do
            let tw ← pyIntAttr sp.before
            pure (styles ++ [(("margin-top: ").data) ++ intToStr (pyTrunc (twip_to_pixels tw)) ++ (("px").data)])
          else pure styles
        let styles ←
          if optTruthy sp.after then do
            let tw ← pyIntAttr sp.after
            pure (styles ++ [(("margin-bottom: ").data) ++ intToStr (pyTrunc (twip_to_pixels tw)) ++ (("px").data)])
          else pure styles
        let styles ←
          if optTruthy sp.line then do
            let lv ← pyIntAttr sp.line
            let lh : Except Str ℚ :=
              if sp.lineRule = some (("auto").data) then .ok ((lv : ℚ) / 240)
              else if sp.lineRule = some (("atLeast").data) then .ok (max 1 ((lv : ℚ) / 240))
              else if sp.lineRule = some (("exact").data) then .ok ((lv : ℚ) / 240)
              else if sp.lineRule = none then .ok ((lv : ℚ) / 240)
              else .error (("UnboundLocalError").data)
            let lhv ← lh
            pure (styles ++ [(("line-height: ").data) ++ format2f lhv])
          else pure styles
        pure styles
      | none => pure styles
    let styles ← match pr.ind with
      | some ind => do
        let styles ←
          if optTruthy ind.left then do
            let tw ← pyIntAttr ind.left
            pure (styles ++ [(("margin-left: ").data) ++ intToStr (pyTrunc (twip_to_pixels tw)) ++ (("px").data)])
          else pure styles
        let styles ←
          if optTruthy ind.right then do
            let tw ← pyIntAttr ind.right
            pure (styles ++ [(("margin-right: ").data) ++ intToStr (pyTrunc (twip_to_pixels tw)) ++ (("px").data)])
          else pure styles
        let styles ←
          if optTruthy ind.firstLine then do
            let tw ← pyIntAttr ind.firstLine
            pure (styles ++ [(("text-indent: ").data) ++ intToStr (pyTrunc (twip_to_pixels tw)) ++ (("px").data)])
          else pure styles
        let styles ←
          if optTruthy ind.hanging then do
            let tw ← pyIntAttr ind.hanging
            pure (styles ++ [(("text-indent: -").data) ++ intToStr (pyTrunc (twip_to_pixels tw)) ++ (("px").data)])
          else pure styles
        pure styles
      | none => pure styles
    let styles := match pr.indFirstLineChars with
      | some chars =>
        if optTruthy chars then styles ++ [("first-letter: float: left; font-size: 200%").data] else styles
      | none => styles
    let styles := match pr.textDirection with
      | some dir =>
        if dir = some (("btLr").data) then styles ++ [("writing-mode: vertical-rl; text-orientation: upright").data]
        else if dir = some (("tbRl").data) then styles ++ [("writing-mode: vertical-rl").data]
        else styles
      | none => styles
    return normalize_css (pyJoin (("; ").data) styles)

/-! Style catalog: `_load_style_definitions` keeps per style id the display
name, the `basedOn` parent, and the raw `w:pPr` / `w:rPr` subtrees, and
builds an inheritance chain per style by following parent links. -/

/-- One entry of `style_definitions`. -/
structure StyleDef where
  name : Option Str := none
  based_on : Option Str := none
  pPr : Option PPr := none
  rPr : Option RPr := none
deriving DecidableEq, Repr

/-- Generic association-list lookup (Python `key in dict` / `dict[key]`). -/
def alookup {β : Type} : List (Str × β) → Str → Option β
  | [], _ => none
  | (k, v) :: rest, key => if k = key then some v else alookup rest key

/-- The parent-link walk of `_load_style_definitions` (lines 308-316):
`while based_on: chain.append(based_on); follow if resolvable else break`.
The source loops forever on a cyclic catalog; the fuel (larger than any
acyclic chain in the catalog) makes the embedding total. -/
def chainWalk (sdefs : List (Str × StyleDef)) : Nat → Option Str → List Str
  | _, none => []
  | 0, some _ => []
  | fuel + 1, some b =>
    if b = [] then []
    else
      b :: (match alookup sdefs b with
            | some sd => chainWalk sdefs fuel sd.based_on
            | none => [])

/-- The inheritance chain of one style: itself, then its ancestors. -/
def buildChain (sdefs : List (Str × StyleDef)) (styleId : Str) (sd : StyleDef) : List Str :=
  styleId :: chainWalk sdefs (sdefs.length + 1) sd.based_on

/-- The `style_inheritance` table built by `_load_style_definitions`. -/
def buildStyleInheritance (sdefs : List (Str × StyleDef)) : List (Str × List Str) :=
  sdefs.map (fun kv => (kv.1, buildChain sdefs kv.1 kv.2))

/-- Truthiness of a modelled `w:pPr` element (`and style_def['pPr']` tests an
lxml element, which is truthy when it has child elements). -/
def pprTruthy : Option PPr → Bool
  | none => false
  | some pr =>
    pr.jc.isSome || pr.spacing.isSome || pr.ind.isSome || pr.indFirstLineChars.isSome ||
    pr.textDirection.isSome || pr.numPr.isSome || pr.pStyle.isSome || pr.outlineLvl.isSome ||
    pr.buChar.isSome || pr.ilvl.isSome

/-- Truthiness of a modelled `w:rPr` element. -/
def rprTruthy : Option RPr → Bool
  | none => false
  | some r =>
    r.color.isSome || r.highlight.isSome || r.b.isSome || r.i.isSome || r.u.isSome ||
    r.strike.isSome || r.vertAlign.isSome || r.spacing.isSome || r.w.isSome ||
    r.shd.isSome || r.sz.isSome

/-- Which of the two property kinds `_get_resolved_style_css` resolves. -/
inductive PropertyType where
  | paragraph
  | run
deriving DecidableEq, Repr

/-- Embedding of `_get_resolved_style_css` (convert_docx_to_html.py lines
351-381): walk the inheritance chain of the named style from the most
distant ancestor to the style itself, collect the css of each level, and
merge with later parts overriding earlier ones. -/
def getResolvedStyleCss (sdefs : List (Str × StyleDef)) (inh : List (Str × List Str))
    (styleName : Str) (ptype : PropertyType) : Except Str Str := do
  match alookup inh styleName with
  | none => return []
  | some chain =>
    let cssParts ← chain.reverse.foldlM (fun (acc : List Str) sid => do
      match alookup sdefs sid with
      | some sd =>
        match ptype with
        | .paragraph =>
          if pprTruthy sd.pPr then do
            let css ← get_paragraph_style_css sd.pPr
            pure (if css ≠ [] then acc ++ [css] else acc)
          else pure acc
        | .run =>
          if rprTruthy sd.rPr then do
            let css ← get_run_style_css sd.rPr
            pure (if css ≠ [] then acc ++ [css] else acc)
          else pure acc
      | none => pure acc) []
    return merge_css_with_priority cssParts

/-! Ordinal formatters from `util.py` (`number_to_letter`, `number_to_roman`)
and the list-counter machinery of the converter (`_get_list_number`,
`_reset_list_counter`). -/

/-- The body of the `while num > 0` loop of `number_to_letter`, after the
positive integer has been converted to a natural number (the loop never runs
for `num <= 0`). -/
def letterGo (lower : Bool) : Nat → Nat → Str → Str
  | 0, _, acc => acc
  | _, 0, acc => acc
  | fuel + 1, num + 1, acc =>
    letterGo lower fuel (num / 26) (Char.ofNat ((if lower then 'a' else 'A').toNat + num % 26) :: acc)

/-- Embedding of `DocxUtils.number_to_letter` (util.py lines 78-86).  The
loop value strictly decreases, so the starting value is enough fuel. -/
def number_to_letter (num : Int) (lower : Bool) : Str :=
  letterGo lower num.toNat num.toNat []

/-- The `val` / `syb` tables of `number_to_roman`, paired up. -/
def romanTable : List (Int × Str) :=
  [(1000, ("M").data), (900, ("CM").data), (500, ("D").data), (400, ("CD").data),
   (100, ("C").data), (90, ("XC").data), (50, ("L").data), (40, ("XL").data),
   (10, ("X").data), (9, ("IX").data), (5, ("V").data), (4, ("IV").data), (1, ("I").data)]

/-- The `while num > 0` loop of `number_to_roman`: the index `i` advances
once per iteration, and each entry contributes `num // val[i]` copies of its
symbol. -/
def romanGo : List (Int × Str) → Int → Str → Str
  | [], _, acc => acc
  | (v, s) :: rest, num, acc =>
    if num > 0 then
      let k := (Int.tdiv num v).toNat
      romanGo rest (num - v * k) (acc ++ (List.replicate k s).flatten)
    else acc

/-- Embedding of `DocxUtils.number_to_roman` (util.py lines 88-100). -/
def number_to_roman (num : Int) (lower : Bool) : Str :=
  let r := romanGo romanTable num []
  if lower then pyLower r else r

/-- Association-list lookup for integer keys (the `numId` / `ilvl` levels of
`self.list_counters`). -/
def ilookup {β : Type} : List (Int × β) → Int → Option β
  | [], _ => none
  | (k, v) :: rest, key => if k = key then some v else ilookup rest key

/-- Python dict assignment for integer keys: update in place, else append. -/
def iupdate {β : Type} (d : List (Int × β)) (k : Int) (v : β) : List (Int × β) :=
  if d.any (fun kv => kv.1 = k) then
    d.map (fun kv => if kv.1 = k then (k, v) else kv)
  else
    d ++ [(k, v)]

/-- The `self.list_counters` table: `numId -> (ilvl -> counter)`. -/
abbrev CounterState := List (Int × List (Int × Int))

/-- Embedding of `_get_list_number` (convert_docx_to_html.py lines 383-432).
The result pairs the emitted number (`none` for bullet or missing formats,
`some s` for ordinal ones, `Except.error` when the `int()` applied to a
dot-joined multi-level number raises) with the updated counter table; the
counter mutations made before the raise are kept, as in the source. -/
def getListNumber (st : CounterState) (numId ilvl : Int) (numFmt : Option Str) :
    Except Str (Option Str) × CounterState :=
  let st := if (ilookup st numId).isNone then iupdate st numId [] else st
  let inner := (ilookup st numId).getD []
  let inner := if (ilookup inner ilvl).isNone then iupdate inner ilvl 0 else inner
  if optTruthy numFmt ∧ numFmt ≠ some (("bullet").data) then
    let cur := (ilookup inner ilvl).getD 0
    let inner := iupdate inner ilvl (cur + 1)
    let st := iupdate st numId inner
    let number : Str :=
      if ilvl > 0 then
        pyJoin (['.']) ((List.range (ilvl + 1).toNat).map (fun l =>
          match ilookup inner (Int.ofNat l) with
          | some c => intToStr c
          | none => ['1']))
      else
        intToStr (cur + 1)
    let formatted : Except Str Str :=
      if numFmt = some (("decimal").data) then .ok number
      else if numFmt = some (("lowerLetter").data) then (pyIntAttr (some number)).map (fun n => number_to_letter n true)
      else if numFmt = some (("upperLetter").data) then (pyIntAttr (some number)).map (fun n => number_to_letter n false)
      else if numFmt = some (("lowerRoman").data) then (pyIntAttr (some number)).map (fun n => number_to_roman n true)
      else if numFmt = some (("upperRoman").data) then (pyIntAttr (some number)).map (fun n => number_to_roman n false)
      else .ok number
    (formatted.map some, st)
  else
    (.ok none, iupdate st numId inner)

/-- Embedding of `_reset_list_counter` (lines 434-439).  Note that nothing in
the source ever calls this method. -/
def resetListCounter (st : CounterState) (numId ilvl : Int) : CounterState :=
  match ilookup st numId with
  | some inner => iupdate st numId (inner.filter (fun kv => ¬ (ilvl ≤ kv.1)))
  | none => st

/-- Rendering a sequence of ordinal list items through `_get_list_number`,
starting from a fresh counter table, collecting the emitted numbers. -/
def runListSequence (items : List (Int × Int)) (numFmt : Option Str) :
    List (Except Str (Option Str)) × CounterState :=
  items.foldl (fun acc it =>
    let (r, st) := getListNumber acc.2 it.1 it.2 numFmt
    (acc.1 ++ [r], st)) ([], [])

/-! Heading anchors: `strip_html_tags` from `util.py` and
`_generate_heading_id` / the registration step of `_scan_headings_recursive`
from the converter. -/

/-- Embedding of `DocxUtils.strip_html_tags` (util.py lines 338-341):
`re.sub(r'<[^>]+>', '', text)`. -/
def stripTagsFuel : Nat → Str → Str
  | 0, s => s
  | _, [] => []
  | fuel + 1, c :: rest =>
    if c = '<' then
      let inner := rest.takeWhile (fun x => x ≠ '>')
      if inner.length > 0 ∧ inner.length < rest.length then
        stripTagsFuel fuel (rest.drop (inner.length + 1))
      else
        c :: stripTagsFuel fuel rest
    else
      c :: stripTagsFuel fuel rest

/-- Embedding of `DocxUtils.strip_html_tags`, fuelled by the string length
(each step consumes at least one character). -/
def strip_html_tags (s : Str) : Str :=
  stripTagsFuel s.length s

/-- The character class `[\w一-鿿-]` kept by `_generate_heading_id`
(`\w` modelled by ASCII alphanumerics and the underscore; the Unicode word
characters beyond those and the explicit CJK block do not occur in the
embedded inputs). -/
def isWordLikeChar (c : Char) : Bool :=
  c.isAlphanum || c = '_' || (0x4e00 ≤ c.toNat ∧ c.toNat ≤ 0x9fff) || c = '-'

/-- Python `re.sub(r'_+', '_', s)`. -/
def collapseUnderscoresFuel : Nat → Str → Str
  | 0, s => s
  | _, [] => []
  | fuel + 1, c :: cs =>
    if c = '_' then '_' :: collapseUnderscoresFuel fuel (cs.dropWhile (fun x => x = '_'))
    else c :: collapseUnderscoresFuel fuel cs

/-- Python `re.sub` collapsing underscore runs, fuelled by the string
length. -/
def collapseUnderscores (s : Str) : Str :=
  collapseUnderscoresFuel s.length s

/-- Python `s.strip('_')`. -/
def stripUnderscores (s : Str) : Str :=
  ((s.dropWhile (fun c => c = '_')).reverse.dropWhile (fun c => c = '_')).reverse

/-- The sanitisation pipeline of `_generate_heading_id`: replace characters
outside the kept class by underscores, collapse runs, strip the ends. -/
def sanitizeHeadingText (t : Str) : Str :=
  stripUnderscores (collapseUnderscores (t.map (fun c => if isWordLikeChar c then c else '_')))

/-- The values view `self.headings_map.values()` used for the collision
check. -/
def headingsMapValues (m : List (Str × Str)) : List Str :=
  m.map (fun kv => kv.2)

/-- The `while heading_id in values` loop of `_generate_heading_id`, trying
`base_1`, `base_2`, ...; the fuel (one more than the registry size) is enough
because the candidates are pairwise distinct and the registry holds fewer
values. -/
def findFreeId (vals : List Str) (base : Str) : Nat → Nat → Str
  | 0, k => base ++ ('_' :: natToStr k)
  | fuel + 1, k =>
    let cand := base ++ ('_' :: natToStr k)
    if vals.contains cand then findFreeId vals base fuel (k + 1) else cand

/-- Python dict assignment for string keys. -/
def dictSet (d : List (Str × Str)) (k v : Str) : List (Str × Str) :=
  cssUpdate d k v

/-- Embedding of `_generate_heading_id` (convert_docx_to_html.py lines
1104-1134). -/
def generateHeadingId (m : List (Str × Str)) (headingHtml : Str) : Str :=
  let headingText := pyStrip (strip_html_tags headingHtml)
  let safeText := sanitizeHeadingText headingText
  let baseId := if safeText = [] then ("heading").data else safeText
  if (headingsMapValues m).contains baseId then
    findFreeId (headingsMapValues m) baseId (m.length + 1) 1
  else
    baseId

/-- One heading registration of `_scan_headings_recursive` (lines 3220-3231):
generate the id from the extracted heading html, then register it under the
cleaned text when that is non-empty. -/
def scanHeadingStep (m : List (Str × Str)) (text : Str) : Str × List (Str × Str) :=
  let headingId := generateHeadingId m text
  let clean := pyStrip (strip_html_tags text)
  (headingId, if clean ≠ [] then dictSet m clean headingId else m)

/-- The pre-scan over a sequence of heading paragraphs, collecting the
generated ids in order together with the final registry. -/
def scanHeadingsSim (texts : List Str) : List Str × List (Str × Str) :=
  texts.foldl (fun acc t =>
    let (hid, m) := scanHeadingStep acc.2 t
    (acc.1 ++ [hid], m)) ([], [])

/-! Paragraph model.  A `w:p` element is modelled by the features the
converter reads: its properties subtree, its runs, its plain text
(`paragraph.text`, the concatenation of the run texts), its
`w:bookmarkStart` names, its style name, and the hyperlink markers used by
`_paragraph_has_hyperlink`. -/

/-- A `w:hyperlink` element: its `r:id` and `w:anchor` attributes. -/
structure HLElem where
  rid : Option Str := none
  anchor : Option Str := none
deriving DecidableEq, Repr

/-- A run (`w:r`): properties, style name, and plain text content.  The
modelled runs contain only `w:t` children; the break, tab, symbol and
field paths of `_process_run_elements` are not exercised by any claim. -/
structure Run where
  rPr : Option RPr := none
  styleName : Option Str := none
  text : Str := []
deriving DecidableEq, Repr

/-- A paragraph (`w:p`). -/
structure Paragraph where
  pPr : Option PPr := none
  runs : List Run := []
  text : Str := []
  bookmarkNames : List Str := []
  styleName : Option Str := none
  hasHyperlinkElem : Bool := false
  fldSimpleInstr : Option (Option Str) := none
  instrTexts : List (Option Str) := []
  preassigned : Option Str := none
deriving DecidableEq, Repr

/-! Table-of-contents detection (`_is_toc_paragraph`, lines 441-664). -/

/-- Membership of the two text patterns
`^\d+\.\s*[^0-9]+[\t\s]+\d+\s*$` (strict := false) and
`^\d+\.\s*[^\d]+[\t\s]+\d+$` (strict := true), which differ only in the
optional trailing whitespace.  `re.match` succeeds exactly when the string
splits as digits, a dot, an all-non-digit middle of length at least two
ending in whitespace, digits, and (for the first pattern) whitespace. -/
def tocPatternMatch (strict : Bool) (s : Str) : Bool :=
  let d1 := s.takeWhile Char.isDigit
  let rest := s.drop d1.length
  if d1 = [] then false
  else
    match rest with
    | '.' :: rest2 =>
      let m := rest2.takeWhile (fun c => ¬ c.isDigit)
      let after := rest2.drop m.length
      let d2 := after.takeWhile Char.isDigit
      let w := after.drop d2.length
      decide (2 ≤ m.length) &&
        (match m.getLast? with
         | some c => pyIsSpace c
         | none => false) &&
        d2 ≠ [] &&
        (if strict then w = [] else w.all pyIsSpace)
    | _ => false

/-- Python `re.sub(r'[\t ]{2,}', '', s)`: remove every maximal run of two or
more tabs/spaces. -/
def removeTabSpaceRunsFuel : Nat → Str → Str
  | 0, s => s
  | _, [] => []
  | fuel + 1, c :: cs =>
    if c = ' ' || c = '\t' then
      let run := (c :: cs).takeWhile (fun x => x = ' ' || x = '\t')
      if 2 ≤ run.length then removeTabSpaceRunsFuel fuel ((c :: cs).drop run.length)
      else c :: removeTabSpaceRunsFuel fuel cs
    else c :: removeTabSpaceRunsFuel fuel cs

/-- Python `re.sub` removing runs of two or more tabs/spaces, fuelled by the
string length. -/
def removeTabSpaceRuns (s : Str) : Str :=
  removeTabSpaceRunsFuel s.length s

/-- Dropping, at the start of a reversed string, the reversed tokens matched
by `(?:&nbsp;| )*`. -/
def dropNbspRevFuel : Nat → Str → Str
  | 0, s => s
  | fuel + 1, s =>
    if ((("&nbsp;").data).reverse).isPrefixOf s then dropNbspRevFuel fuel (s.drop 6)
    else
      match s with
      | ' ' :: rest => dropNbspRevFuel fuel rest
      | _ => s

/-- Dropping non-breaking-space tokens at the start of a reversed string,
fuelled by the string length. -/
def dropNbspRev (s : Str) : Str :=
  dropNbspRevFuel s.length s

/-- Python `re.sub(r'[.…]+(?:&nbsp;| )*\d+\s*$', '', s)`: strip a
trailing run of dots or ellipses, optional non-breaking-space tokens, a page
number and trailing whitespace. -/
def stripPageSuffixDots (s : Str) : Str :=
  let rev := s.reverse
  let rev1 := rev.dropWhile pyIsSpace
  let d := rev1.takeWhile Char.isDigit
  if d = [] then s
  else
    let rev2 := dropNbspRev (rev1.drop d.length)
    let dots := rev2.takeWhile (fun c => c = '.' ∨ c = '…')
    if dots = [] then s else (rev2.drop dots.length).reverse

/-- Dropping, at the start of a reversed string, the reversed tokens matched
by `(?:&nbsp;| |\s)+` (result paired with whether anything was
dropped). -/
def dropWsEntityRevFuel : Nat → Str → Str
  | 0, s => s
  | fuel + 1, s =>
    if ((("&nbsp;").data).reverse).isPrefixOf s then dropWsEntityRevFuel fuel (s.drop 6)
    else
      match s with
      | c :: rest =>
        if c = ' ' ∨ pyIsSpace c then dropWsEntityRevFuel fuel rest else s
      | [] => []

/-- Dropping whitespace-like tokens at the start of a reversed string,
fuelled by the string length. -/
def dropWsEntityRev (s : Str) : Str :=
  dropWsEntityRevFuel s.length s

/-- Python `re.sub(r'(?:&nbsp;| |\s)+\d+\s*$', '', s)`: strip a page
number preceded by at least one whitespace-like token. -/
def stripPageSuffixWs (s : Str) : Str :=
  let rev := s.reverse
  let rev1 := rev.dropWhile pyIsSpace
  let d := rev1.takeWhile Char.isDigit
  if d = [] then s
  else
    let rev2 := rev1.drop d.length
    let rev3 := dropWsEntityRev rev2
    if rev3.length = rev2.length then s else rev3.reverse

/-- Python `re.sub(r'[.… ]+$', '', s)`. -/
def stripTrailingDots (s : Str) : Str :=
  (s.reverse.dropWhile (fun c => c = '.' ∨ c = '…' ∨ c = ' ')).reverse

/-- Python `re.sub(r'(?:&nbsp;| |\s)+', '', s)`: remove every
non-breaking-space entity, non-breaking-space character, and whitespace
character. -/
def removeWsEntitiesFuel : Nat → Str → Str
  | 0, s => s
  | _, [] => []
  | fuel + 1, c :: cs =>
    if (("&nbsp;").data).isPrefixOf (c :: cs) then removeWsEntitiesFuel fuel ((c :: cs).drop 6)
    else if c = ' ' ∨ pyIsSpace c then removeWsEntitiesFuel fuel cs
    else c :: removeWsEntitiesFuel fuel cs

/-- Removal of every whitespace-like token anywhere in the string, fuelled
by the string length. -/
def removeWsEntities (s : Str) : Str :=
  removeWsEntitiesFuel s.length s

/-- The title-cleaning pipeline of `_is_toc_paragraph` (lines 637-654),
applied to the stripped paragraph text once the acceptance condition holds. -/
def cleanTocTitle (raw : Str) : Str :=
  let cleaned := pyRemoveSub (("&emsp;").data) raw
  let cleaned := pyRemoveSub (("&ensp;").data) cleaned
  let cleaned := pyRemoveSub ([' ']) cleaned
  let cleaned := removeTabSpaceRuns cleaned
  let cleaned := pyLstrip cleaned
  let title := stripPageSuffixDots cleaned
  let title := stripPageSuffixWs title
  let title := stripTrailingDots title
  let title := pyStrip title
  let title := removeWsEntities title
  pyStrip title

/-- The style test of `_is_toc_paragraph`: the `w:pStyle` value contains
`toc` or `contents` (case-insensitive). -/
def isTocStyleVal (p : Paragraph) : Bool :=
  match p.pPr with
  | some pr =>
    match pr.pStyle with
    | some sv =>
      let v := pyLower (sv.getD [])
      pyContainsSub v (("toc").data) || pyContainsSub v (("contents").data)
    | none => false
  | none => false

/-- The bookmark test of `_is_toc_paragraph`: some `w:bookmarkStart` name
starts with `_Toc`. -/
def hasTocBookmark (p : Paragraph) : Bool :=
  p.bookmarkNames.any (fun n => pyStartsWith n (("_Toc").data))

/-- The text-pattern test of `_is_toc_paragraph` on the stripped text. -/
def hasTocPatternText (rawText : Str) : Bool :=
  rawText ≠ [] && (tocPatternMatch false rawText || tocPatternMatch true rawText)

/-- Embedding of `_is_toc_paragraph` (lines 441-664), returning the same
`(is_toc, title_text, border_style)` triple.  The modelled paragraphs carry
no `w:pBdr`, so the border style is empty on acceptance. -/
def isTocParagraph (p : Paragraph) : Bool × Option Str × Option Str :=
  let rawText := pyStrip p.text
  let bm := hasTocBookmark p
  let sty := isTocStyleVal p
  let pat := hasTocPatternText rawText
  let borderStyle : Str := []
  if (bm && (sty || pat)) || (sty && pat) ||
      (pat && (pyContainsChar rawText '\t' || pyContainsSub rawText (("  ").data))) then
    let titleText := cleanTocTitle rawText
    if titleText ≠ [] ∧ 1 < titleText.length then (true, some titleText, some borderStyle)
    else (false, none, none)
  else (false, none, none)

/-! Heading lookup for TOC entries (`_find_heading_id`, lines 1136-1172) and
the loose TOC-title matcher (`_matches_toc_title`, lines 1274-1292). -/

/-- The CJK block used by the keyword regex. -/
def isCJKChar (c : Char) : Bool :=
  0x4e00 ≤ c.toNat ∧ c.toNat ≤ 0x9fff

/-- Basic latin letters. -/
def isAsciiAlpha (c : Char) : Bool :=
  ('a' ≤ c ∧ c ≤ 'z') ∨ ('A' ≤ c ∧ c ≤ 'Z')

/-- Python `re.findall(r'[一-鿿]+|[a-zA-Z]+', text)`: maximal runs
of CJK characters or latin letters, in order. -/
def keywordsOfFuel : Nat → Str → List Str
  | 0, _ => []
  | _, [] => []
  | fuel + 1, c :: cs =>
    if isCJKChar c then
      (c :: cs.takeWhile isCJKChar) :: keywordsOfFuel fuel (cs.drop (cs.takeWhile isCJKChar).length)
    else if isAsciiAlpha c then
      (c :: cs.takeWhile isAsciiAlpha) :: keywordsOfFuel fuel (cs.drop (cs.takeWhile isAsciiAlpha).length)
    else
      keywordsOfFuel fuel cs

/-- The keyword token scan, fuelled by the string length. -/
def keywordsOf (s : Str) : List Str :=
  keywordsOfFuel s.length s

/-- Python `len(set(a) & set(b))`: the number of distinct elements of `a`
that also occur in `b`. -/
def countCommon (a b : List Str) : Nat :=
  (a.dedup.filter (fun x => b.contains x)).length

/-- Removal of spaces and tabs, the whitespace-insensitive comparison of
`_find_heading_id`. -/
def stripSpacesTabs (s : Str) : Str :=
  s.filter (fun c => ¬ (c = ' ' ∨ c = '\t'))

/-- Embedding of `_find_heading_id` (lines 1136-1172): exact match, then
whitespace-insensitive match, then substring containment either way, then
keyword overlap.  The Python dict iteration order is the registration
order, which the association list preserves. -/
def findHeadingId (m : List (Str × Str)) (titleText : Str) : Option Str :=
  match alookup m titleText with
  | some hid => some hid
  | none =>
    match m.find? (fun kv => stripSpacesTabs kv.1 = stripSpacesTabs titleText) with
    | some kv => some kv.2
    | none =>
      match m.find? (fun kv =>
          pyContainsSub (pyStrip kv.1) (pyStrip titleText) ||
          pyContainsSub (pyStrip titleText) (pyStrip kv.1)) with
      | some kv => some kv.2
      | none =>
        let titleKeywords := keywordsOf titleText
        if titleKeywords ≠ [] then
          match m.find? (fun kv =>
              let headingKeywords := keywordsOf kv.1
              headingKeywords ≠ [] ∧
                (2 ≤ countCommon titleKeywords headingKeywords ∨
                  (1 ≤ countCommon titleKeywords headingKeywords ∧ titleKeywords.length ≤ 2))) with
          | some kv => some kv.2
          | none => none
        else none

/-- The normalisation of `_matches_toc_title`: strip, drop all whitespace,
drop everything outside word characters and the CJK block. -/
def normTocTitle (s : Str) : Str :=
  ((pyStrip s).filter (fun c => ¬ pyIsSpace c)).filter
    (fun c => c.isAlphanum || c = '_' || isCJKChar c)

/-- Embedding of `_matches_toc_title` (lines 1274-1292).  The Python set
iteration order is unspecified; the model iterates the title list in order
(no claim depends on which matching title is returned). -/
def matchesTocTitle (tocTitles : List Str) (textPlain : Str) : Option Str :=
  if textPlain = [] then none
  else
    let normText := normTocTitle textPlain
    tocTitles.find? (fun t =>
      let nt := normTocTitle t
      nt ≠ [] ∧ (normText = nt ∨ pyContainsSub nt normText ∨ pyContainsSub normText nt))

/-- Embedding of `_paragraph_has_hyperlink` (lines 1294-1315): a
`w:hyperlink` element, a `w:fldSimple` whose instruction contains
`HYPERLINK`, or some `w:instrText` containing `HYPERLINK`. -/
def paragraphHasHyperlink (p : Paragraph) : Bool :=
  if p.hasHyperlinkElem then true
  else
    let fldHit := match p.fldSimpleInstr with
      | some (some instr) => pyContainsSub instr (("HYPERLINK").data)
      | _ => false
    if fldHit then true
    else
      p.instrTexts.any (fun it =>
        match it with
        | some t => pyContainsSub t (("HYPERLINK").data)
        | none => false)

/-! Inline html builders shared by `_process_hyperlink`,
`extract_paragraph_text_with_links` and the paragraph renderer. -/

/-- The styled span `f'<span style="{style}">{escaped_text}</span>'`. -/
def mkStyledSpan (style text : Str) : Str :=
  (("<span style=\"").data) ++ style ++ (("\">").data) ++ pyEscape text ++ (("</span>").data)

/-- The anchor `f'<a href="{escaped_href}" style="{style}">{escaped_text}</a>'`. -/
def mkAnchorHtml (href style text : Str) : Str :=
  (("<a href=\"").data) ++ pyEscape href ++ (("\" style=\"").data) ++ style ++
    (("\">").data) ++ pyEscape text ++ (("</a>").data)

/-- Embedding of `_process_hyperlink` (lines 930-967).  The relationship
table models `self.doc.part.rels` as `rId -> target_ref`; the loop takes
the first relationship whose id matches.  Its result is the list of html
fragments appended to `html_parts` — in particular the empty list when the
loop finds no matching relationship. -/
def processHyperlink (rels : List (Str × Str)) (hyperlinkElem : Option HLElem)
    (text style : Str) : List Str :=
  match hyperlinkElem with
  | none => [mkStyledSpan style text]
  | some h =>
    match h.rid with
    | some rid =>
      if rid ≠ [] then
        match alookup rels rid with
        | some target =>
          let href : Option Str :=
            if optTruthy h.anchor then some ('#' :: h.anchor.getD [])
            else if target ≠ [] ∧ pyStartsWith target (("mailto:").data) then some target
            else if target ≠ [] then some target
            else none
          match href with
          | some hr => [mkAnchorHtml hr style text]
          | none => [mkStyledSpan style text]
        | none => []
      else [mkStyledSpan style text]
    | none => [mkStyledSpan style text]

/-! Floating-object grouping (`extract_images_from_paragraph`, lines
2825-2893): items carry the absolute rectangle `(x, y, w, h)` computed from
the anchor offsets; they are sorted into visual order by 10px vertical
buckets, then greedily grouped by bounding-box overlap with a 5px margin. -/

/-- The `_rect` of one floating item. -/
structure RectItem where
  x : Int
  y : Int
  w : Int
  h : Int
deriving DecidableEq, Repr

/-- The sort key comparison: `(y // 10, x)` lexicographically (Python floor
division). -/
def sortKeyLe (a b : RectItem) : Bool :=
  Int.fdiv a.y 10 < Int.fdiv b.y 10 ||
    (Int.fdiv a.y 10 = Int.fdiv b.y 10 && a.x ≤ b.x)

/-- Stable insertion of one item behind every earlier item whose key is not
greater. -/
def insSorted (x : RectItem) : List RectItem → List RectItem
  | [] => [x]
  | y :: ys => if sortKeyLe y x then y :: insSorted x ys else x :: y :: ys

/-- The position sort of `all_items.sort(key=sort_key)`: Python sorts are
stable, and a stable insertion sort computes the same permutation for the
total preorder given by the key. -/
def sortItems (items : List RectItem) : List RectItem :=
  items.foldl (fun acc it => insSorted it acc) []

/-- The bounding box `(min_x, min_y, max_x, max_y)` of a group, as computed
inside the grouping loop (the groups produced always contain their seed, so
the empty case is unreachable). -/
def groupBBox : List RectItem → Int × Int × Int × Int
  | [] => (0, 0, 0, 0)
  | r :: rest =>
    rest.foldl (fun acc it =>
      (min acc.1 it.x, min acc.2.1 it.y, max acc.2.2.1 (it.x + it.w), max acc.2.2.2 (it.y + it.h)))
      (r.x, r.y, r.x + r.w, r.y + r.h)

/-- The overlap test of the grouping loop, with the 5px tolerance margin. -/
def overlapsGroup (g : List RectItem) (it : RectItem) : Bool :=
  let bb := groupBBox g
  let margin : Int := 5
  !(it.x + it.w + margin < bb.1 || bb.2.2.1 + margin < it.x ||
    it.y + it.h + margin < bb.2.1 || bb.2.2.2 + margin < it.y)

/-- The scan `for j in range(len(all_items)): if not processed[j]` that finds
the first unprocessed item overlapping the current group, split out of the
remainder list. -/
def splitFirstOverlap (g : List RectItem) : List RectItem → Option (List RectItem × RectItem × List RectItem)
  | [] => none
  | r :: rs =>
    if overlapsGroup g r then some ([], r, rs)
    else
      match splitFirstOverlap g rs with
      | some (b, x, a) => some (r :: b, x, a)
      | none => none

/-- The `while group_changed` loop: absorb the first overlapping unprocessed
item, recompute the bounding box, and repeat until none overlaps.  Each step
consumes one item of the remainder, so the fuel `rem.length` suffices. -/
def expandGroup : Nat → List RectItem → List RectItem → List RectItem × List RectItem
  | 0, g, rem => (g, rem)
  | fuel + 1, g, rem =>
    match splitFirstOverlap g rem with
    | none => (g, rem)
    | some (b, x, a) => expandGroup fuel (g ++ [x]) (b ++ a)

/-- The outer `for i` loop: seed a new group with the first unprocessed item
and expand it to a fixed point. -/
def groupLoop : Nat → List RectItem → List (List RectItem)
  | 0, _ => []
  | _ + 1, [] => []
  | fuel + 1, r :: rest =>
    let p := expandGroup rest.length [r] rest
    p.1 :: groupLoop fuel p.2

/-- The grouping pass of `extract_images_from_paragraph`: sort by position,
then group by bounding-box connectivity. -/
def groupFloatingObjects (items : List RectItem) : List (List RectItem) :=
  let sorted := sortItems items
  groupLoop sorted.length sorted

/-- The separation property the grouping loop establishes: once a group is
closed, no item of any later group overlaps its bounding box (within the
margin) — the merge iterated until no more merges occurred. -/
def groupsSeparated : List (List RectItem) → Prop
  | [] => True
  | g :: rest => (∀ r ∈ rest.flatten, overlapsGroup g r = false) ∧ groupsSeparated rest

/-! Per-run global state (claim C7): `DocxUtils.SCALE` is class-level,
process-wide state; the counter table, heading registry and TOC title set
are converter-instance state created afresh in `__init__`. -/

/-- Embedding of `_init_scale_to_1200` (lines 95-120): the content width in
EMU from the first section, converted to pixels, mapped to the 1200px
target, clamped to `[0.5, 2.5]`; any failure or missing geometry yields
`1.0`.  The float arithmetic is modelled exactly over the rationals. -/
def initScale (pageW leftM rightM : Option Int) : ℚ :=
  let contentEmu : Option Int :=
    match pageW, leftM, rightM with
    | some pw, some lm, some rm => if pw ≠ 0 then some (pw - lm - rm) else none
    | _, _, _ => none
  match contentEmu with
  | some ce =>
    if 0 < ce then
      let contentPx := emuToPixelsBase ce
      let scale := if 0 < contentPx then (1200 : ℚ) / (contentPx : ℚ) else 1
      let scale := if scale < 1 / 2 then 1 / 2 else scale
      if 5 / 2 < scale then 5 / 2 else scale
    else 1
  | none => 1

/-- The section geometry of a document (page width and margins in EMU). -/
structure DocGeom where
  pageWidth : Option Int := none
  leftMargin : Option Int := none
  rightMargin : Option Int := none
deriving DecidableEq, Repr

/-- An abstract document for the two-run isolation claim: its geometry, the
ordinal list items rendered (numId, ilvl, numFmt), the heading texts
scanned, and the drawing extents converted through the scaled
`emu_to_pixels`. -/
structure DocModel where
  geom : DocGeom := {}
  listItems : List (Int × Int × Option Str) := []
  headingTexts : List Str := []
  drawingExtents : List Int := []
deriving Repr

/-- The process-wide state: the class attribute `DocxUtils.SCALE`. -/
structure ProcessState where
  scale : ℚ := 1
deriving DecidableEq, Repr

/-- The observations one conversion run makes of the shared state. -/
structure RunOutput where
  scaledPixels : List Int
  listNumbers : List (Except Str (Option Str))
  headingIds : List Str
deriving Repr

/-- One conversion run: `__init__` creates fresh instance registries and
(on every path of `_init_scale_to_1200`) assigns `DocxUtils.SCALE` from the
document geometry; `convert` then scans the headings into the fresh
registry, renders the ordinal list items against the fresh counter table,
and converts drawing extents through the global scale. -/
def runConversion (ps : ProcessState) (d : DocModel) : RunOutput × ProcessState :=
  let ps2 : ProcessState := { scale := initScale d.geom.pageWidth d.geom.leftMargin d.geom.rightMargin }
  let hids := (scanHeadingsSim d.headingTexts).1
  let nums := (d.listItems.foldl (fun acc it =>
    let p := getListNumber acc.2 it.1 it.2.1 it.2.2
    (acc.1 ++ [p.1], p.2)) (([] : List (Except Str (Option Str))), ([] : CounterState))).1
  let px := d.drawingExtents.map (fun e => emu_to_pixels_scaled ps2.scale e)
  ({ scaledPixels := px, listNumbers := nums, headingIds := hids }, ps2)

/-! List metadata resolution (`parse_list_from_xml`, lines 1174-1272) over
the numbering catalog (`_load_numbering_definitions`). -/

/-- One level of a numbering definition. -/
structure LevelInfo where
  is_bullet : Bool := false
  bullet_char : Str := ['•']
  numFmt : Option Str := none
  bullet_color : Option Str := none
  bullet_size : Option ℚ := none
deriving DecidableEq, Repr

/-- The `numbering_definitions` table: `numId -> (ilvl -> level info)`. -/
abbrev NumberingDefs := List (Int × List (Int × LevelInfo))

/-- The result tuple of `parse_list_from_xml`. -/
inductive ListInfo where
  | numbered (level : Int) (numId : Int) (color : Option Str) (numFmt : Option Str)
  | bulleted (level : Int) (bulletChar : Str) (color : Option Str) (bulletSize : Option ℚ)
deriving DecidableEq, Repr

/-- Embedding of `_get_list_number_color_from_xml` (lines 1317-1332): the
six-digit colour of the first run, if any. -/
def getListNumberColorFromXml (p : Paragraph) : Option Str :=
  match p.runs with
  | [] => none
  | r :: _ =>
    match r.rPr with
    | some rp =>
      match rp.color with
      | some (some cv) => if cv ≠ [] ∧ cv.length = 6 then some ('#' :: cv) else none
      | _ => none
    | none => none

/-- The shared body of the two `numPr` branches of `parse_list_from_xml`:
map the pair through the numbering catalog, defaulting to a plain numbered
list when the catalog misses. -/
def listInfoFromNumPr (ndefs : NumberingDefs) (p : Paragraph) (np : NumPrAttrs) :
    Except Str (Option ListInfo) := do
  let ilvl ← match np.ilvl with
    | some v => pyIntAttr v
    | none => pure 0
  let numId ← match np.numId with
    | some v => pyIntAttr v
    | none => pure 0
  let paragraphColor := getListNumberColorFromXml p
  match ilookup ndefs numId with
  | some levels =>
    match ilookup levels ilvl with
    | some li =>
      if li.is_bullet then
        let bc := match li.bullet_color with
          | some c => if c ≠ [] then some c else paragraphColor
          | none => paragraphColor
        return some (.bulleted ilvl li.bullet_char bc li.bullet_size)
      else
        return some (.numbered ilvl numId paragraphColor li.numFmt)
    | none => return some (.numbered ilvl numId paragraphColor none)
  | none => return some (.numbered ilvl numId paragraphColor none)

/-- Embedding of `parse_list_from_xml` (lines 1174-1272): an explicit
`w:numPr` on the paragraph, else the first `w:numPr` inherited through the
style chain (its failures swallowed by the surrounding `try`), else the
legacy `w:buChar`; otherwise not a list. -/
def parseListFromXml (ndefs : NumberingDefs) (sdefs : List (Str × StyleDef))
    (inh : List (Str × List Str)) (p : Paragraph) : Except Str (Option ListInfo) :=
  match p.pPr with
  | none => .ok none
  | some pr =>
    match pr.numPr with
    | some np => listInfoFromNumPr ndefs p np
    | none =>
      let styleVal : Str := match pr.pStyle with
        | some sv => sv.getD []
        | none => []
      let viaStyle : Option (Except Str (Option ListInfo)) :=
        if styleVal ≠ [] ∧ (alookup inh styleVal).isSome then
          match ((alookup inh styleVal).getD []).findSome? (fun sid =>
              match alookup sdefs sid with
              | some sd =>
                match sd.pPr with
                | some spr => spr.numPr
                | none => none
              | none => none) with
          | some np => some (listInfoFromNumPr ndefs p np)
          | none => none
        else none
      match viaStyle with
      | some (.ok r) => .ok r
      | _ =>
        match pr.buChar with
        | some bc => do
          let bulletChar := bc.getD (['•'])
          let ilvl ← match pr.ilvl with
            | some v => pyIntAttr v
            | none => pure 0
          return some (.bulleted ilvl bulletChar (getListNumberColorFromXml p) none)
        | none => .ok none

/-! Heading detection (`is_heading_from_xml`, lines 1030-1102). -/

/-- The large-font/bold scan over the runs; the `int(sz_val)` conversion can
raise, unguarded in the source. -/
def largeBoldScan : List Run → Bool → Bool → Except Str Bool
  | [], _, _ => .ok false
  | r :: rest, isLarge, isBold =>
    match r.rPr with
    | some rp => do
      let isLarge ← match rp.sz with
        | some szAttr =>
          if optTruthy szAttr then do
            let n ← pyIntAttr szAttr
            pure (if (15 : ℚ) ≤ (n : ℚ) / 2 then true else isLarge)
          else pure isLarge
        | none => pure isLarge
      let isBold := match rp.b with
        | some bAttr => if bAttr ≠ some (("0").data) then true else isBold
        | none => isBold
      if isLarge && isBold then return true
      else largeBoldScan rest isLarge isBold
    | none => largeBoldScan rest isLarge isBold

/-- Embedding of `is_heading_from_xml` (lines 1030-1102): heading-like style
name, explicit outline level, a large bold run, or a `_Toc` bookmark on a
paragraph whose text does not look like a TOC entry. -/
def isHeadingFromXml (p : Paragraph) : Except Str Bool := do
  match p.pPr with
  | none => return false
  | some pr =>
    let styleHit : Bool := match pr.pStyle with
      | some sv =>
        let v := sv.getD []
        !v.isEmpty && (pyContainsSub (pyLower v) (("heading").data) ||
          pyContainsSub (pyLower v) (("title").data) ||
          pyStartsWith (pyLower v) (("head").data))
      | none => false
    if styleHit then return true
    else
      let outlineHit := match pr.outlineLvl with
        | some lv => lv.isSome
        | none => false
      if outlineHit then return true
      else
        let lb ← largeBoldScan p.runs false false
        if lb then return true
        else
          let bookmarkHit :=
            match p.bookmarkNames.find? (fun n => n ≠ [] ∧ pyStartsWith n (("_Toc").data)) with
            | some _ =>
              let rawText := pyStrip p.text
              ¬ (rawText ≠ [] ∧ (tocPatternMatch false rawText ∨ tocPatternMatch true rawText))
            | none => false
          return bookmarkHit

/-! Run and paragraph formatting (`_get_run_format_from_xml` lines 969-995,
`_get_paragraph_format_from_xml` lines 997-1028) and the modelled inline
text extraction. -/

/-- The converter tables fixed over one walk. -/
structure ConvCtx where
  sdefs : List (Str × StyleDef) := []
  inh : List (Str × List Str) := []
  ndefs : NumberingDefs := []

/-- Embedding of `_get_run_format_from_xml`: resolved style css (when the
style name is known) merged with the direct `w:rPr` css. -/
def getRunFormatFromXml (ctx : ConvCtx) (r : Run) : Except Str Str := do
  let cssParts : List Str := []
  let cssParts ← match r.styleName with
    | some sn =>
      if sn ≠ [] ∧ (alookup ctx.inh sn).isSome then do
        let inherited ← getResolvedStyleCss ctx.sdefs ctx.inh sn .run
        pure (if inherited ≠ [] then cssParts ++ [inherited] else cssParts)
      else pure cssParts
    | none => pure cssParts
  let cssParts ← match r.rPr with
    | some rp => do
      let direct ← get_run_style_css (some rp)
      pure (if direct ≠ [] then cssParts ++ [direct] else cssParts)
    | none => pure cssParts
  if cssParts ≠ [] then return merge_css_with_priority cssParts else return []

/-- Embedding of `_get_paragraph_format_from_xml`: resolved paragraph style
css merged with the direct `w:pPr` css. -/
def getParagraphFormatFromXml (sdefs : List (Str × StyleDef)) (inh : List (Str × List Str))
    (p : Paragraph) : Except Str Str := do
  let cssParts : List Str := []
  let cssParts ← match p.styleName with
    | some sn =>
      if sn ≠ [] ∧ (alookup inh sn).isSome then do
        let inherited ← getResolvedStyleCss sdefs inh sn .paragraph
        pure (if inherited ≠ [] then cssParts ++ [inherited] else cssParts)
      else pure cssParts
    | none => pure cssParts
  let cssParts ← match p.pPr with
    | some pv => do
      let direct ← get_paragraph_style_css (some pv)
      pure (if direct ≠ [] then cssParts ++ [direct] else cssParts)
    | none => pure cssParts
  if cssParts ≠ [] then return merge_css_with_priority cssParts else return []

/-- Model of `extract_paragraph_text_with_links` for runs whose children are
plain `w:t` text nodes: each run with non-blank text contributes one styled
span (the buffered flush at the end of `_process_run_elements`).  The break,
tab, symbol and hyperlink-wrapper paths are not exercised by the claims
settled over this model. -/
def extractParagraphTextModel (ctx : ConvCtx) (p : Paragraph) : Except Str Str :=
  p.runs.foldlM (fun acc r => do
    let style ← getRunFormatFromXml ctx r
    if pyStrip r.text ≠ [] then
      pure (acc ++ mkStyledSpan style r.text)
    else pure acc) []

/-! The paragraph renderer (`process_paragraph`, lines 2175-2661), modelled
for paragraphs without `w:drawing` children (for which
`extract_images_from_paragraph` yields no images), and the per-element
document walk (`_traverse_document_body`, lines 712-808). -/

/-- The walk state owned by one converter instance. -/
structure WalkState where
  listCounters : CounterState := []
  headingsMap : List (Str × Str) := []
  tocTitles : List Str := []
deriving Repr

/-- Embedding of `_get_list_number_size_from_xml` (lines 2095-2107). -/
def getListNumberSizeFromXml (p : Paragraph) : Except Str (Option Int) :=
  match p.runs with
  | [] => .ok none
  | r :: _ =>
    match r.rPr with
    | some rp =>
      match rp.sz with
      | some szv =>
        if optTruthy szv then do
          let n ← pyIntAttr szv
          pure (some (pyTrunc ((n : ℚ) / 2 * (133 / 100))))
        else .ok none
      | none => .ok none
    | none => .ok none

/-- The hanging-width computation shared by the prefix builders (default
15px; `max(15, hanging in px)`, or a third of the left indent). -/
def hangingWidthFromPPr (p : Paragraph) : Except Str Int := do
  match p.pPr with
  | some pr =>
    match pr.ind with
    | some ind =>
      if optTruthy ind.hanging then do
        let tw ← pyIntAttr ind.hanging
        pure (max 15 (pyTrunc (twip_to_pixels tw)))
      else if optTruthy ind.left then do
        let tw ← pyIntAttr ind.left
        pure (max 15 (Int.fdiv (pyTrunc (twip_to_pixels tw)) 3))
      else pure 15
    | none => pure 15
  | none => pure 15

/-- The css of a numbered prefix: the colour (or `inherit`) and an optional
font size. -/
def numberStyleStr (color : Option Str) (sizePx : Option Int) : Str :=
  let colorTruthy : Bool := match color with
    | some c => !c.isEmpty
    | none => false
  let ns : List Str :=
    if colorTruthy then [(("color: ").data) ++ color.getD []] else [("color: inherit").data]
  let ns := match sizePx with
    | some n => ns ++ [(("font-size: ").data) ++ intToStr n ++ (("px").data)]
    | none => ns
  pyJoin (("; ").data) ns

/-- The numbered-list prefix html: the number span and the spacing span. -/
def numberPrefixHtml (numberStyle : Str) (number : Str) (hw : Int) : Str :=
  (("<span style=\"").data) ++ numberStyle ++ (("\">").data) ++ number ++
    ((".</span><span style=\"display:inline-block; width:").data) ++ intToStr hw ++
    (("px;\"></span>").data)

/-- Boldness of the first run (the guarded check of the bullet branches). -/
def firstRunBold (p : Paragraph) : Bool :=
  match p.runs with
  | r :: _ =>
    match r.rPr with
    | some rp =>
      match rp.b with
      | some bAttr => bAttr ≠ some (("0").data)
      | none => false
    | none => false
  | [] => false

/-- The css of a bullet prefix. -/
def bulletStyleStr (color : Option Str) (bold : Bool) (bulletSize : Option ℚ) : Str :=
  let colorTruthy : Bool := match color with
    | some c => !c.isEmpty
    | none => false
  let bs : List Str :=
    if colorTruthy then [(("color: ").data) ++ color.getD []] else [("color: inherit").data]
  let bs := if bold then bs ++ [("font-weight: bold").data] else bs
  let bs := match bulletSize with
    | some q => if q ≠ 0 then bs ++ [(("font-size: ").data) ++ intToStr (pyTrunc (q * (133 / 100))) ++ (("px").data)] else bs
    | none => bs
  pyJoin (("; ").data) bs

/-- The bullet prefix html. -/
def bulletPrefixHtml (bulletStyle : Str) (bulletChar : Str) (hw : Int) : Str :=
  (("<span style=\"").data) ++ bulletStyle ++ (("\">").data) ++ bulletChar ++
    (("</span><span style=\"display:inline-block; width:").data) ++ intToStr hw ++
    (("px;\"></span>").data)

/-! The TOC rendering branch of `process_paragraph` (lines 2453-2479),
split into named builders so the theorems can speak about its two shapes. -/

/-- Set insertion into `self.toc_titles`. -/
def addTocTitle (ts : List Str) (t : Str) : List Str :=
  if ts.contains t then ts else ts ++ [t]

/-- The linked rendering `<p ...><a href="#id" ...>title</a></p>`. -/
def tocAnchorHtml (style hid title : Str) : Str :=
  (("<p style=\"").data) ++ style ++ (("\"><a href=\"#").data) ++ hid ++
    (("\" style=\"").data) ++ normalize_css [] ++ (("\">").data) ++ title ++ (("</a></p>").data)

/-- The plain rendering `<p ...>title</p>`. -/
def tocPlainHtml (style title : Str) : Str :=
  (("<p style=\"").data) ++ style ++ (("\">").data) ++ title ++ (("</p>").data)

/-- Merging the border style into the paragraph style (lines 2468-2472). -/
def tocMergedStyle (style : Str) (borderStyle : Option Str) : Str :=
  match borderStyle with
  | some bs => if bs ≠ [] then (if style ≠ [] then style ++ (("; ").data) ++ bs else bs) else style
  | none => style

/-- The hyperlinking condition of the TOC branch: a truthy target anchor was
found for the cleaned title, and the source paragraph originally carried a
hyperlink. -/
def tocLinkCond (hm : List (Str × Str)) (p : Paragraph) (title : Str) : Bool :=
  optTruthy (findHeadingId hm title) && paragraphHasHyperlink p

/-- Embedding of the TOC branch of `process_paragraph` (lines 2453-2479):
look up the target anchor, record the title, compute the style, and emit
either the hyperlinked or the plain rendering. -/
def renderTocEntry (sdefs : List (Str × StyleDef)) (inh : List (Str × List Str))
    (hm : List (Str × Str)) (tocTitles : List Str) (p : Paragraph)
    (tocTitle : Str) (borderStyle : Option Str) : Except Str (Str × List Str) := do
  let headingId := findHeadingId hm tocTitle
  let tocTitles := if tocTitle ≠ [] then addTocTitle tocTitles (pyStrip tocTitle) else tocTitles
  let style0 ← getParagraphFormatFromXml sdefs inh p
  let style := tocMergedStyle style0 borderStyle
  if optTruthy headingId && paragraphHasHyperlink p then
    return (tocAnchorHtml style (headingId.getD []) tocTitle, tocTitles)
  else
    return (tocPlainHtml style tocTitle, tocTitles)

/-- The heading branch of `process_paragraph` (lines 2360-2446): style and
text, an optional ordinal or bullet prefix (advancing the counter table,
with possible raises), the pre-assigned or freshly generated anchor id,
registration, and the html.  Also the body of the matched-TOC fallback
branch (lines 2483-2566), which performs the same sequence inside a
`try`. -/
def headingBranchE (ctx : ConvCtx) (st : WalkState) (p : Paragraph) :
    Except Str Str × WalkState :=
  match getParagraphFormatFromXml ctx.sdefs ctx.inh p with
  | .error e => (.error e, st)
  | .ok style =>
  match extractParagraphTextModel ctx p with
  | .error e => (.error e, st)
  | .ok text =>
  match parseListFromXml ctx.ndefs ctx.sdefs ctx.inh p with
  | .error e => (.error e, st)
  | .ok li =>
    let prefixResult : Except Str Str × WalkState :=
      match li with
      | some (.numbered level numId color numFmt) =>
        let pr := getListNumber st.listCounters numId level numFmt
        let st2 := { st with listCounters := pr.2 }
        match pr.1 with
        | .error e => (.error e, st2)
        | .ok (some number) =>
          ((do
            let sizePx ← getListNumberSizeFromXml p
            let hw ← hangingWidthFromPPr p
            pure (numberPrefixHtml (numberStyleStr color sizePx) number hw)), st2)
        | .ok none => (.ok [], st2)
      | some (.bulleted _ bulletChar color bulletSize) =>
        ((do
          let hw ← hangingWidthFromPPr p
          pure (bulletPrefixHtml (bulletStyleStr color (firstRunBold p) bulletSize)
            (if bulletChar ≠ [] then bulletChar else ['•']) hw)), st)
      | none => (.ok [], st)
    match prefixResult with
    | (.error e, st2) => (.error e, st2)
    | (.ok prefixHtml, st2) =>
      let headingId := match p.preassigned with
        | some hid => hid
        | none => generateHeadingId st2.headingsMap text
      let clean := pyStrip (strip_html_tags text)
      let st3 := { st2 with headingsMap := dictSet st2.headingsMap clean headingId }
      (.ok ((("<p id=\"").data) ++ headingId ++ (("\" style=\"").data) ++ style ++
        (("\">").data) ++ prefixHtml ++ text ++ (("</p>").data)), st3)

/-- The matched-TOC fallback of `process_paragraph` (lines 2482-2568): the
whole branch runs inside `try ... except: pass`, so a raise keeps the
counter mutations already made and falls through to the list branch. -/
def tocMatchTry (ctx : ConvCtx) (st : WalkState) (p : Paragraph) :
    Option Str × WalkState :=
  match extractParagraphTextModel ctx p with
  | .error _ => (none, st)
  | .ok text0 =>
    if (matchesTocTitle st.tocTitles (pyStrip (strip_html_tags text0))).isSome then
      match headingBranchE ctx st p with
      | (.ok html, st2) => (some html, st2)
      | (.error _, st2) => (none, st2)
    else (none, st)

/-- The list/plain branch of `process_paragraph` (lines 2570-2659). -/
def listBranchE (ctx : ConvCtx) (st : WalkState) (p : Paragraph) :
    Except Str Str × WalkState :=
  match parseListFromXml ctx.ndefs ctx.sdefs ctx.inh p with
  | .error e => (.error e, st)
  | .ok none =>
    ((do
      let style ← getParagraphFormatFromXml ctx.sdefs ctx.inh p
      let text ← extractParagraphTextModel ctx p
      pure ((("<p style=\"").data) ++ style ++ (("\">").data) ++ text ++ (("</p>").data))), st)
  | .ok (some (.numbered level numId color numFmt)) =>
    (match getParagraphFormatFromXml ctx.sdefs ctx.inh p with
     | .error e => (.error e, st)
     | .ok style =>
      match extractParagraphTextModel ctx p with
      | .error e => (.error e, st)
      | .ok fullText =>
        let pr := getListNumber st.listCounters numId level numFmt
        let st2 := { st with listCounters := pr.2 }
        match pr.1 with
        | .error e => (.error e, st2)
        | .ok (some number) =>
          (match (do
              let sizePx ← getListNumberSizeFromXml p
              let hw ← hangingWidthFromPPr p
              pure ((("<p style=\"").data) ++ style ++ (("\">").data) ++
                numberPrefixHtml (numberStyleStr color sizePx) number hw ++
                (("<span>").data) ++ fullText ++ (("</span></p>").data)) : Except Str Str) with
           | .error e => (.error e, st2)
           | .ok html => (.ok html, st2))
        | .ok none =>
          (.ok ((("<p style=\"").data) ++ style ++ (("\">").data) ++ fullText ++ (("</p>").data)), st2))
  | .ok (some (.bulleted _ bulletChar color bulletSize)) =>
    ((do
      let style ← getParagraphFormatFromXml ctx.sdefs ctx.inh p
      let fullText ← extractParagraphTextModel ctx p
      let hw ← hangingWidthFromPPr p
      pure ((("<p style=\"").data) ++ style ++ (("\">").data) ++
        bulletPrefixHtml (bulletStyleStr color (firstRunBold p) bulletSize)
          (if bulletChar ≠ [] then bulletChar else ['•']) hw ++ fullText ++ (("</p>").data))), st)

/-- Embedding of `process_paragraph` for paragraphs without drawings:
suppressed when blank, else heading, TOC entry, matched-TOC fallback, list,
or plain, in that priority order.  Raises escape the function except where
the source catches them. -/
def processParagraphE (ctx : ConvCtx) (st : WalkState) (p : Paragraph) :
    Except Str Str × WalkState :=
  if pyStrip p.text = [] then (.ok [], st)
  else
    match isHeadingFromXml p with
    | .error e => (.error e, st)
    | .ok true => headingBranchE ctx st p
    | .ok false =>
      match isTocParagraph p with
      | (true, some tocTitle, borderStyle) =>
        (match renderTocEntry ctx.sdefs ctx.inh st.headingsMap st.tocTitles p tocTitle borderStyle with
         | .ok (html, tts) => (.ok html, { st with tocTitles := tts })
         | .error e => (.error e, st))
      | _ =>
        match tocMatchTry ctx st p with
        | (some html, st2) => (.ok html, st2)
        | (none, st2) => listBranchE ctx st2 p

/-- Whether an `Except` computation succeeded. -/
def exceptIsOk {ε α : Type} : Except ε α → Bool
  | .ok _ => true
  | .error _ => false

/-- The acceptance rule of claim C4, written as the claim words it:
(bookmark and (style-match or pattern-match)) or (style-match and
pattern-match) or (pattern-match and the raw text contains a tab or a run
of two or more spaces), and the cleaned title is longer than one
character. -/
def c4ClaimAccept (p : Paragraph) : Bool :=
  let rawText := pyStrip p.text
  ((hasTocBookmark p && (isTocStyleVal p || hasTocPatternText rawText)) ||
    (isTocStyleVal p && hasTocPatternText rawText) ||
    (hasTocPatternText rawText &&
      (pyContainsChar rawText '\t' || pyContainsSub rawText (("  ").data)))) &&
  decide (1 < (cleanTocTitle rawText).length)

/-- The paragraph loop of `_traverse_document_body`: each element is
processed by a bare `process_paragraph` call, so a raise aborts the whole
walk. -/
def traverseParagraphsE (ctx : ConvCtx) (st : WalkState) :
    List Paragraph → Except Str (List Str) × WalkState
  | [] => (.ok [], st)
  | p :: rest =>
    let r := processParagraphE ctx st p
    match r.1 with
    | .error e => (.error e, r.2)
    | .ok html =>
      let rr := traverseParagraphsE ctx r.2 rest
      match rr.1 with
      | .error e => (.error e, rr.2)
      | .ok rest2 => (.ok (html :: rest2), rr.2)

/-- The style catalog of the inheritance-override example: a base style
setting `color: #111111` and a child style based on it setting
`color: #222222`. -/
def c1StyleDefs : List (Str × StyleDef) :=
  [((("Base").data), { rPr := some { color := some (some (("111111").data)) } }),
   ((("Child").data), { based_on := some (("Base").data),
                        rPr := some { color := some (some (("222222").data)) } })]

/-- The inheritance table built from the example catalog. -/
def c1Inheritance : List (Str × List Str) :=
  buildStyleInheritance c1StyleDefs

/-- The numbering catalog and paragraphs of the exception-propagation
example: `numId 5` maps level 1 to a `lowerLetter` ordinal format (whose
dot-joined multi-level number cannot be fed to `int()`), `numId 7` maps
level 0 to `decimal`. -/
def c9Ctx : ConvCtx :=
  { ndefs := [(5, [(1, { is_bullet := false, numFmt := some (("lowerLetter").data) })]),
              (7, [(0, { is_bullet := false, numFmt := some (("decimal").data) })])] }

/-- A multi-level `lowerLetter` list paragraph: rendering its number raises
`ValueError` inside `_get_list_number`. -/
def c9BadPara : Paragraph :=
  { text := ("item one").data,
    runs := [{ text := ("item one").data }],
    pPr := some { numPr := some { ilvl := some (some (("1").data)),
                                  numId := some (some (("5").data)) } } }

/-- An ordinary decimal list paragraph that renders without raising. -/
def c9GoodPara : Paragraph :=
  { text := ("hello world").data,
    runs := [{ text := ("hello world").data }],
    pPr := some { numPr := some { ilvl := some (some (("0").data)),
                                  numId := some (some (("7").data)) } } }

/-! Theorems. -/

/-- Lookup after appending a single binding. -/
theorem alookupD_append_single (d : List (Str × Str)) (k v key : Str) :
    alookupD (d ++ [(k, v)]) key =
      match alookupD d key with
      | some x => some x
      | none => if k = key then some v else none := by
  induction d with
  | nil => simp [alookupD]
  | cons hd tl ih =>
    cases hd with
    | mk hk hv =>
      by_cases h : hk = key
      · simp [alookupD, h]
      · simp [alookupD, h, ih]

/-- Lookup in the update-in-place image of the css dict. -/
theorem alookupD_map_update (d : List (Str × Str)) (k v key : Str) :
    alookupD (d.map (fun kv => if kv.1 = k then (k, v) else kv)) key =
      if k = key then (if d.any (fun kv => kv.1 = k) then some v else none)
      else alookupD d key := by
  induction d with
  | nil => simp [alookupD]
  | cons hd tl ih =>
    obtain ⟨hk, hv⟩ := hd
    simp only [List.map_cons, List.any_cons]
    by_cases hhk : hk = k
    · rw [if_pos (show (hk, hv).1 = k from hhk)]
      by_cases hkey : k = key
      · subst hkey
        simp [alookupD, hhk]
      · have hhkey : ¬ hk = key := by rw [hhk]; exact hkey
        simp [alookupD, hkey, hhkey, ih]
    · rw [if_neg (show ¬ (hk, hv).1 = k from hhk)]
      by_cases hkeq : k = key
      · subst hkeq
        simp only [decide_eq_false hhk, Bool.false_or]
        simp [alookupD, hhk, ih]
      · by_cases hhkey : hk = key
        · simp [alookupD, hhkey, hkeq]
        · simp [alookupD, hhkey, hkeq, ih]

/-- A key absent from every pair looks up to nothing. -/
theorem alookupD_eq_none_of_not_any (d : List (Str × Str)) (k : Str)
    (hany : ¬ d.any (fun kv => kv.1 = k)) : alookupD d k = none := by
  induction d with
  | nil => rfl
  | cons hd tl ih =>
    obtain ⟨hk2, hv2⟩ := hd
    simp only [List.any_cons, Bool.or_eq_true, decide_eq_true_eq] at hany
    push_neg at hany
    simp only [alookupD]
    rw [if_neg hany.1]
    exact ih (by simp [hany.2])

/-- `css_dict[prop] = value` then lookup: the written key reads back the
value, other keys are untouched. -/
theorem alookupD_cssUpdate (d : List (Str × Str)) (k v key : Str) :
    alookupD (cssUpdate d k v) key = if k = key then some v else alookupD d key := by
  unfold cssUpdate
  by_cases hany : d.any (fun kv => kv.1 = k)
  · rw [if_pos hany, alookupD_map_update, if_pos hany]
  · rw [if_neg hany, alookupD_append_single]
    by_cases hk : k = key
    · subst hk
      rw [alookupD_eq_none_of_not_any d k hany]
    · cases h : alookupD d key
      · simp [hk]
      · simp [hk]

/-- Folding a declaration list into the dict, seen through one key: the fold
of the per-key override function. -/
theorem alookupD_foldl_update (decls : List (Str × Str)) (d : List (Str × Str)) (key : Str) :
    alookupD (decls.foldl (fun d kv => cssUpdate d kv.1 kv.2) d) key =
      decls.foldl (fun acc kv => if kv.1 = key then some kv.2 else acc) (alookupD d key) := by
  induction decls generalizing d with
  | nil => rfl
  | cons kv tl ih =>
    simp only [List.foldl_cons]
    rw [ih, alookupD_cssUpdate]

/-- If the override fold from `none` produces a value, it produces the same
value from any start (the last writer wins regardless of what was there). -/
theorem foldl_override_some (decls : List (Str × Str)) (key v : Str) :
    ∀ init : Option Str,
      decls.foldl (fun acc kv => if kv.1 = key then some kv.2 else acc) none = some v →
      decls.foldl (fun acc kv => if kv.1 = key then some kv.2 else acc) init = some v := by
  induction decls with
  | nil => intro init h; exact absurd h (by simp)
  | cons kv tl ih =>
    intro init h
    simp only [List.foldl_cons] at h ⊢
    by_cases hk : kv.1 = key
    · simpa [hk] using h
    · simp only [hk, if_false] at h ⊢
      exact ih init (ih none h)

/-- C1.  Inheritance override law.  (1) In `merge_css_with_priority`, when
the most specific css part (the named style, merged last by
`_get_resolved_style_css`) sets property `k` to `v` as its last declaration
of `k`, the merged css dict maps `k` to exactly `v`, whatever any ancestor
parts declared.  (2) End to end on the example of the specification: with an
ancestor style setting `color: #111111` and the named style setting
`color: #222222`, the resolved run css is exactly `color: #222222`. -/
theorem c1_inheritance_override :
    (∀ (parts : List Str) (own k v : Str),
      lastDecl k own = some v →
      alookupD (mergedCssDict (parts ++ [own])) k = some v) ∧
    getResolvedStyleCss c1StyleDefs c1Inheritance (("Child").data) .run =
      .ok (("color: #222222").data) := by
  constructor
  · intro parts own k v h
    have hne : own ≠ [] := by
      intro he
      rw [he] at h
      exact Option.noConfusion ((rfl : lastDecl k [] = none) ▸ h)
    have hsplit : mergedCssDict (parts ++ [own]) = parseDecls (mergedCssDict parts) own := by
      simp [mergedCssDict, List.foldl_append, hne]
    rw [hsplit]
    unfold parseDecls
    rw [alookupD_foldl_update]
    exact foldl_override_some (declsOf own) k v _ h
  · rfl

/-- Witness for C1 at the example of the specification: the ancestor part
sets `color: #111111`, the own part `color: #222222`, and the merged dict
maps `color` to `#222222`. -/
theorem c1_inheritance_override_witness :
    alookupD (mergedCssDict ([(("color: #111111").data)] ++ [(("color: #222222").data)]))
      (("color").data) = some (("#222222").data) :=
  c1_inheritance_override.1 [(("color: #111111").data)] (("color: #222222").data)
    (("color").data) (("#222222").data) (by rfl)

/-- C2 counterexample.  Rendering the 3-level ordinal list in the order
(L0, L1, L1, L0, L1) under one list id emits `2.3` as the fifth number, not
`2.1`: nothing resets the level-1 counter when level 0 advances. -/
theorem c2_counterexample :
    (runListSequence [(1, 0), (1, 1), (1, 1), (1, 0), (1, 1)] (some (("decimal").data))).1.getLast? =
      some (.ok (some (("2.3").data))) ∧ (("2.3").data) ≠ (("2.1").data) := by
  exact ⟨rfl, by decide⟩

/-- C2 as amended.  The five numbers emitted by `_get_list_number` for the
visit order (L0, L1, L1, L0, L1) are `1`, `1.1`, `1.2`, `2`, `2.3`: the
deeper counter keeps its value when level 0 advances, because
`_reset_list_counter` is never invoked. -/
theorem c2_list_numbering :
    (runListSequence [(1, 0), (1, 1), (1, 1), (1, 0), (1, 1)] (some (("decimal").data))).1 =
      [.ok (some (("1").data)), .ok (some (("1.1").data)), .ok (some (("1.2").data)),
       .ok (some (("2").data)), .ok (some (("2.3").data))] := rfl

/-- C3 counterexample.  Three headings with identical cleaned text `foo`
receive the anchors `foo`, `foo_1`, `foo`: registering the second heading
overwrites the registry entry for `foo`, so the collision check no longer
sees the first anchor and the third heading repeats it.  Uniqueness fails
after the third registration. -/
theorem c3_counterexample :
    (scanHeadingsSim [(("foo").data), (("foo").data), (("foo").data)]).1 =
      [(("foo").data), (("foo_1").data), (("foo").data)] ∧
    ¬ (scanHeadingsSim [(("foo").data), (("foo").data), (("foo").data)]).1.Nodup := by
  exact ⟨rfl, by decide⟩

/-- C3 as amended.  Two headings with identical cleaned text receive `foo`
and `foo_1` (distinct); a heading whose sanitised text is empty receives the
fallback id `heading`; but global uniqueness only holds until a cleaned text
repeats a third time, when the id `foo` is generated again. -/
theorem c3_heading_ids :
    (scanHeadingsSim [(("foo").data), (("foo").data)]).1 = [(("foo").data), (("foo_1").data)] ∧
    (scanHeadingsSim [(("foo").data), (("foo").data)]).1.Nodup ∧
    generateHeadingId [] (("###").data) = (("heading").data) ∧
    (scanHeadingsSim [(("foo").data), (("foo").data), (("foo").data)]).1 =
      [(("foo").data), (("foo_1").data), (("foo").data)] := by
  exact ⟨rfl, by decide, rfl, rfl⟩

/-- C10.  For every integer `n ≤ 0` both ordinal formatters return the
empty string: their `while num > 0` loops never run. -/
theorem c10_nonpositive_ordinals (n : Int) (lo : Bool) (h : n ≤ 0) :
    number_to_letter n lo = [] ∧ number_to_roman n lo = [] := by
  constructor
  · unfold number_to_letter
    have : n.toNat = 0 := Int.toNat_of_nonpos h
    rw [this]
    rfl
  · unfold number_to_roman romanTable
    have hng : ¬ (0 : Int) < n := not_lt.mpr h
    simp only [romanGo, hng, if_false]
    cases lo <;> rfl

/-- Witness for C10 at `n = -5` and `n = 0`. -/
theorem c10_nonpositive_ordinals_witness :
    number_to_letter (-5) true = [] ∧ number_to_roman 0 false = [] :=
  ⟨(c10_nonpositive_ordinals (-5) true (by decide)).1,
   (c10_nonpositive_ordinals 0 false (by decide)).2⟩

/-- C4.  For every paragraph, `_is_toc_paragraph` accepts exactly when the
rule of the claim holds: (bookmark and (style or pattern)) or (style and
pattern) or (pattern and a tab or double space in the raw text), together
with a cleaned title longer than one character. -/
theorem c4_toc_acceptance (p : Paragraph) : (isTocParagraph p).1 = c4ClaimAccept p := by
  unfold isTocParagraph c4ClaimAccept
  by_cases hcond : ((hasTocBookmark p && (isTocStyleVal p || hasTocPatternText (pyStrip p.text))) ||
      (isTocStyleVal p && hasTocPatternText (pyStrip p.text)) ||
      (hasTocPatternText (pyStrip p.text) &&
        (pyContainsChar (pyStrip p.text) '\t' || pyContainsSub (pyStrip p.text) (("  ").data)))) = true
  · by_cases hlen : 1 < (cleanTocTitle (pyStrip p.text)).length
    · have hne : cleanTocTitle (pyStrip p.text) ≠ [] := by
        intro h0
        rw [h0] at hlen
        simp at hlen
      simp [hcond, hlen, hne]
    · simp [hcond, hlen]
  · simp [hcond]

/-- C4 witness at a concrete TOC-looking paragraph (tab separated number,
title and page) and at a plain paragraph. -/
theorem c4_toc_acceptance_witness :
    (isTocParagraph { text := ("1. Overview\t3").data }).1 =
      c4ClaimAccept { text := ("1. Overview\t3").data } ∧
    (isTocParagraph { text := ("1. Overview\t3").data }).1 = true ∧
    (isTocParagraph { text := ("just text").data }).1 =
      c4ClaimAccept { text := ("just text").data } ∧
    (isTocParagraph { text := ("just text").data }).1 = false :=
  ⟨c4_toc_acceptance { text := ("1. Overview\t3").data }, by decide,
   c4_toc_acceptance { text := ("just text").data }, by decide⟩

/-- C5.  A TOC entry is rendered with an anchor exactly when a truthy
target id was found for its cleaned title and the source paragraph itself
carried a hyperlink (`tocLinkCond`); otherwise the plain paragraph shape is
emitted.  The second and third parts show that the anchor shape contains
the `<a href="#` fragment and the plain shape does not. -/
theorem c5_toc_entry_hyperlink :
    (∀ (sdefs : List (Str × StyleDef)) (inh : List (Str × List Str))
      (hm : List (Str × Str)) (tts : List Str) (p : Paragraph) (title : Str)
      (border : Option Str),
      renderTocEntry sdefs inh hm tts p title border =
        (getParagraphFormatFromXml sdefs inh p).map (fun style0 =>
          (if tocLinkCond hm p title then
              tocAnchorHtml (tocMergedStyle style0 border) ((findHeadingId hm title).getD []) title
            else tocPlainHtml (tocMergedStyle style0 border) title,
           if title ≠ [] then addTocTitle tts (pyStrip title) else tts))) ∧
    pyContainsSub (tocAnchorHtml [] (("Overview").data) (("Overview").data))
      (("<a href=\"#").data) = true ∧
    pyContainsSub (tocPlainHtml [] (("Overview").data)) (("<a href=\"#").data) = false := by
  refine ⟨?_, by decide, by decide⟩
  intro sdefs inh hm tts p title border
  unfold renderTocEntry tocLinkCond
  cases hs : getParagraphFormatFromXml sdefs inh p with
  | error e => simp [hs, Except.map, Except.bind, bind]
  | ok style0 =>
    simp [hs, Except.map, Except.bind, bind]
    split <;> rfl

/-- C7.  Sequential conversion runs are isolated: the observations of a run
do not depend on the process state left by any earlier run (the scale is
reassigned from the document geometry on every `__init__` path, and the
counter, registry and title structures are fresh instance state), and in
particular a second run behaves as if it ran in a fresh process. -/
theorem c7_per_run_isolation :
    (∀ (ps1 ps2 : ProcessState) (d : DocModel),
      (runConversion ps1 d).1 = (runConversion ps2 d).1) ∧
    (∀ (ps : ProcessState) (d1 d2 : DocModel),
      (runConversion ((runConversion ps d1).2) d2).1 = (runConversion ps d2).1) :=
  ⟨fun _ _ _ => rfl, fun _ _ _ => rfl⟩

/-- C8 counterexample.  A hyperlink wrapper whose relationship id resolves
to nothing appends no fragment at all: the run text `hello` is dropped
rather than degraded to a styled span. -/
theorem c8_counterexample :
    processHyperlink [((("rId1").data), (("http://example.com").data))]
        (some { rid := some (("rId9").data), anchor := none })
        (("hello").data) (("color: red").data) = [] ∧
    ([] : List Str) ≠ [mkStyledSpan (("color: red").data) (("hello").data)] :=
  ⟨rfl, by decide⟩

/-- C8 as amended.  When the relationship id resolves, the href priority is
the internal bookmark anchor first, then the target itself (mailto or
external); a missing id degrades to a styled span; but an id the resolver
cannot resolve emits nothing — the text is dropped, not degraded. -/
theorem c8_hyperlink_rendering :
    (∀ (rels : List (Str × Str)) (rid a text style target : Str),
      rid ≠ [] → a ≠ [] → alookup rels rid = some target →
      processHyperlink rels (some { rid := some rid, anchor := some a }) text style =
        [mkAnchorHtml ('#' :: a) style text]) ∧
    (∀ (rels : List (Str × Str)) (rid text style target : Str),
      rid ≠ [] → target ≠ [] → alookup rels rid = some target →
      processHyperlink rels (some { rid := some rid, anchor := none }) text style =
        [mkAnchorHtml target style text]) ∧
    (∀ (rels : List (Str × Str)) (rid text style : Str) (a : Option Str),
      rid ≠ [] → alookup rels rid = none →
      processHyperlink rels (some { rid := some rid, anchor := a }) text style = []) ∧
    (∀ (rels : List (Str × Str)) (text style : Str) (a : Option Str),
      processHyperlink rels (some { rid := none, anchor := a }) text style =
        [mkStyledSpan style text]) := by
  refine ⟨?_, ?_, ?_, ?_⟩
  · intro rels rid a text style target hrid ha hrel
    simp [processHyperlink, hrid, hrel, optTruthy, ha]
  · intro rels rid text style target hrid ht hrel
    by_cases hm : pyStartsWith target (("mailto:").data)
    · simp [processHyperlink, hrid, hrel, optTruthy, ht, hm]
    · simp [processHyperlink, hrid, hrel, optTruthy, ht, hm]
  · intro rels rid text style a hrid hrel
    simp [processHyperlink, hrid, hrel]
  · intro rels text style a
    simp [processHyperlink]

/-- C8 witness: anchor-priority rendering at a concrete resolved
relationship. -/
theorem c8_hyperlink_rendering_witness :
    processHyperlink [((("rId1").data), (("http://example.com").data))]
        (some { rid := some (("rId1").data), anchor := some (("bk").data) })
        (("hello").data) [] = [mkAnchorHtml ('#' :: (("bk").data)) [] (("hello").data)] :=
  c8_hyperlink_rendering.1 [((("rId1").data), (("http://example.com").data))]
    (("rId1").data) (("bk").data) (("hello").data) [] (("http://example.com").data)
    (by decide) (by decide) (by rfl)

/-- C9 counterexample.  A multi-level `lowerLetter` list paragraph raises
`ValueError` inside `_get_list_number` (the dot-joined number fed to
`int()`), and the exception propagates out of `process_paragraph` and
aborts the document walk — it is not caught at the element boundary. -/
theorem c9_counterexample :
    (traverseParagraphsE c9Ctx {} [c9BadPara]).1 = .error (("ValueError").data) := rfl

/-- C9 as amended.  Processing a well-formed decimal list paragraph
succeeds, but an exception raised while processing a single element
(the multi-level letter-format paragraph) escapes the per-element call and
makes the whole walk fail. -/
theorem c9_exception_propagation :
    exceptIsOk (traverseParagraphsE c9Ctx {} [c9GoodPara]).1 = true ∧
    (traverseParagraphsE c9Ctx {} [c9GoodPara, c9BadPara]).1 =
      .error (("ValueError").data) :=
  ⟨rfl, rfl⟩

/-- The overlap scan returns nothing exactly when no remaining item
overlaps the bounding box of the group. -/
theorem splitFirstOverlap_none_iff (g : List RectItem) (rem : List RectItem) :
    splitFirstOverlap g rem = none ↔ ∀ r ∈ rem, overlapsGroup g r = false := by
  induction rem with
  | nil => simp [splitFirstOverlap]
  | cons r rs ih =>
    by_cases h : overlapsGroup g r
    · simp [splitFirstOverlap, h]
    · have hr : overlapsGroup g r = false := Bool.eq_false_iff.mpr h
      cases hsp : splitFirstOverlap g rs with
      | some t =>
        constructor
        · intro hnone
          simp only [splitFirstOverlap, if_neg h, hsp] at hnone
          exact absurd hnone (by simp)
        · intro hall
          have hnone := ih.mpr (fun r2 hr2 => hall r2 (List.mem_cons_of_mem r hr2))
          rw [hsp] at hnone
          exact absurd hnone (by simp)
      | none =>
        constructor
        · intro _ r2 hr2
          rcases List.mem_cons.mp hr2 with h1 | h2
          · subst h1
            exact hr
          · exact (ih.mp hsp) r2 h2
        · intro _
          simp only [splitFirstOverlap, if_neg h, hsp]

/-- A successful overlap scan splits the remainder around the found item. -/
theorem splitFirstOverlap_some_eq (g : List RectItem) :
    ∀ (rem b : List RectItem) (x : RectItem) (a : List RectItem),
      splitFirstOverlap g rem = some (b, x, a) → rem = b ++ x :: a := by
  intro rem
  induction rem with
  | nil => intro b x a h; exact absurd h (by simp [splitFirstOverlap])
  | cons r rs ih =>
    intro b x a h
    by_cases ho : overlapsGroup g r
    · simp only [splitFirstOverlap, if_pos ho, Option.some.injEq, Prod.mk.injEq] at h
      obtain ⟨hb, hx, ha⟩ := h
      subst hb
      subst hx
      subst ha
      rfl
    · simp only [splitFirstOverlap, if_neg ho] at h
      cases hsp : splitFirstOverlap g rs with
      | none =>
        rw [hsp] at h
        exact absurd h (by simp)
      | some t =>
        obtain ⟨b2, x2, a2⟩ := t
        rw [hsp] at h
        simp only [Option.some.injEq, Prod.mk.injEq] at h
        obtain ⟨hb, hx, ha⟩ := h
        subst hb
        subst hx
        subst ha
        rw [ih b2 x2 a2 hsp]
        rfl

/-- Expanding a group only removes items from the remainder. -/
theorem expandGroup_rem_subset :
    ∀ (fuel : Nat) (g rem : List RectItem) (r : RectItem),
      r ∈ (expandGroup fuel g rem).2 → r ∈ rem := by
  intro fuel
  induction fuel with
  | zero => intro g rem r hr; simpa [expandGroup] using hr
  | succ n ih =>
    intro g rem r hr
    simp only [expandGroup] at hr
    cases hsp : splitFirstOverlap g rem with
    | none => rw [hsp] at hr; exact hr
    | some t =>
      obtain ⟨b, x, a⟩ := t
      rw [hsp] at hr
      have hmem := ih (g ++ [x]) (b ++ a) r hr
      rw [splitFirstOverlap_some_eq g rem b x a hsp]
      rcases List.mem_append.mp hmem with h1 | h2
      · exact List.mem_append.mpr (Or.inl h1)
      · exact List.mem_append.mpr (Or.inr (List.mem_cons_of_mem x h2))

/-- With enough fuel, the expansion reaches its fixed point: no remaining
item overlaps the bounding box of the finished group. -/
theorem expandGroup_no_overlap :
    ∀ (fuel : Nat) (g rem : List RectItem), rem.length ≤ fuel →
      ∀ r ∈ (expandGroup fuel g rem).2,
        overlapsGroup (expandGroup fuel g rem).1 r = false := by
  intro fuel
  induction fuel with
  | zero =>
    intro g rem hle r hr
    have : rem = [] := List.length_eq_zero.mp (Nat.le_zero.mp hle)
    subst this
    simp [expandGroup] at hr
  | succ n ih =>
    intro g rem hle r hr
    simp only [expandGroup] at hr ⊢
    cases hsp : splitFirstOverlap g rem with
    | none =>
      rw [hsp] at hr
      exact (splitFirstOverlap_none_iff g rem).mp hsp r hr
    | some t =>
      obtain ⟨b, x, a⟩ := t
      rw [hsp] at hr
      have hsplit := splitFirstOverlap_some_eq g rem b x a hsp
      have hlen : (b ++ a).length ≤ n := by
        have hrem : rem.length = b.length + a.length + 1 := by
          rw [hsplit]
          simp
          omega
        simp only [List.length_append]
        omega
      exact ih (g ++ [x]) (b ++ a) hlen r hr

/-- Every member of every produced group came from the input items. -/
theorem expandGroup_group_subset :
    ∀ (fuel : Nat) (g rem : List RectItem) (r : RectItem),
      r ∈ (expandGroup fuel g rem).1 → r ∈ g ∨ r ∈ rem := by
  intro fuel
  induction fuel with
  | zero => intro g rem r hr; simp only [expandGroup] at hr; exact Or.inl hr
  | succ n ih =>
    intro g rem r hr
    simp only [expandGroup] at hr
    cases hsp : splitFirstOverlap g rem with
    | none => rw [hsp] at hr; exact Or.inl hr
    | some t =>
      obtain ⟨b, x, a⟩ := t
      rw [hsp] at hr
      have hsplit := splitFirstOverlap_some_eq g rem b x a hsp
      rcases ih (g ++ [x]) (b ++ a) r hr with h1 | h2
      · rcases List.mem_append.mp h1 with hg | hx
        · exact Or.inl hg
        · right
          rw [hsplit]
          simp only [List.mem_singleton] at hx
          subst hx
          exact List.mem_append.mpr (Or.inr (List.mem_cons_self r a))
      · right
        rw [hsplit]
        rcases List.mem_append.mp h2 with hb | ha
        · exact List.mem_append.mpr (Or.inl hb)
        · exact List.mem_append.mpr (Or.inr (List.mem_cons_of_mem x ha))

/-- Every item inside the groups of the loop came from the input list. -/
theorem groupLoop_flatten_subset :
    ∀ (fuel : Nat) (rem : List RectItem) (r : RectItem),
      r ∈ (groupLoop fuel rem).flatten → r ∈ rem := by
  intro fuel
  induction fuel with
  | zero => intro rem r hr; simp [groupLoop] at hr
  | succ n ih =>
    intro rem r hr
    cases rem with
    | nil => simp [groupLoop] at hr
    | cons hd tl =>
      simp only [groupLoop, List.flatten_cons, List.mem_append] at hr
      rcases hr with h1 | h2
      · rcases expandGroup_group_subset tl.length [hd] tl r h1 with hg | ht
        · simp only [List.mem_singleton] at hg
          rw [hg]
          exact List.mem_cons_self hd tl
        · exact List.mem_cons_of_mem hd ht
      · have := ih (expandGroup tl.length [hd] tl).2 r h2
        exact List.mem_cons_of_mem hd (expandGroup_rem_subset tl.length [hd] tl r this)

/-- The grouping loop leaves its groups pairwise separated: no member of a
later group overlaps the bounding box of an earlier one. -/
theorem groupLoop_separated (fuel : Nat) :
    ∀ rem : List RectItem, groupsSeparated (groupLoop fuel rem) := by
  induction fuel with
  | zero => intro rem; simp [groupLoop, groupsSeparated]
  | succ n ih =>
    intro rem
    cases rem with
    | nil => simp [groupLoop, groupsSeparated]
    | cons hd tl =>
      simp only [groupLoop, groupsSeparated]
      refine ⟨?_, ih _⟩
      intro x hx
      have hx2 := groupLoop_flatten_subset n _ x hx
      exact expandGroup_no_overlap tl.length [hd] tl (le_refl _) x hx2

/-- C6.  Floating-object grouping: the two example boxes overlapping by
10px land in one overlay group, the boxes 120px apart stay in distinct
groups, and in general the connectivity pass iterates until no item outside
a finished group overlaps its bounding box within the margin. -/
theorem c6_floating_grouping :
    groupFloatingObjects [⟨0, 0, 100, 50⟩, ⟨90, 10, 100, 50⟩] =
      [[⟨0, 0, 100, 50⟩, ⟨90, 10, 100, 50⟩]] ∧
    groupFloatingObjects [⟨0, 0, 100, 50⟩, ⟨200, 0, 100, 50⟩] =
      [[⟨0, 0, 100, 50⟩], [⟨200, 0, 100, 50⟩]] ∧
    ∀ items : List RectItem, groupsSeparated (groupFloatingObjects items) := by
  refine ⟨rfl, rfl, ?_⟩
  intro items
  exact groupLoop_separated (sortItems items).length (sortItems items)

end DocxToHtml
